import Mathlib

/-!
Verification development for the beacon relay engine
(`src/unnamed/part_000`, the complete variant of the sample with TTL,
sequence-based deduplication and telemetry fields).

The engine's data structures and operations are shallowly embedded:
the `beacon_queue` array becomes a `List BeaconInfo`, `uint32` timestamp
arithmetic becomes `Nat` arithmetic with explicit wrap-around
(`sub32`), and the radio transport calls (`bt_le_ext_adv_set_data`,
`bt_le_ext_adv_start`) are modelled as always succeeding, since every
claim under study concerns only the core aggregation logic.
-/

namespace BeaconRelay

/-- `#define MAX_EXT_ADV_DATA_LEN 191` (part_000 line 9). -/
def MAX_EXT_ADV_DATA_LEN : Nat := 191

/-- `#define MAX_ADV_SETS 2` (part_000 line 10). -/
def MAX_ADV_SETS : Nat := 2

/-- `#define MAX_BEACONS 100` (part_000 line 11): the store capacity. -/
def MAX_BEACONS : Nat := 100

/-- `#define MAX_BEACONS_PER_SET 24` (part_000 line 12). -/
def MAX_BEACONS_PER_SET : Nat := 24

/-- `#define BEACON_BATCH_SIZE 3` (part_000 line 13). -/
def BEACON_BATCH_SIZE : Nat := 3

/-- `#define BEACON_DATA_SIZE 7` (part_000 line 14): 6 address bytes plus one RSSI byte. -/
def BEACON_DATA_SIZE : Nat := 7

/-- `#define MAX_WAIT_TIME_MS 3000` (part_000 line 16). -/
def MAX_WAIT_TIME_MS : Nat := 3000

/-- `#define RECOVERY_TIMEOUT_MS 5000` (part_000 line 17). -/
def RECOVERY_TIMEOUT_MS : Nat := 5000

/-- `#define TIME_THRESHOLD 5000` (part_000 line 19). -/
def TIME_THRESHOLD : Nat := 5000

/-- `#define INITIAL_TTL 3` (part_000 line 20). -/
def INITIAL_TTL : Nat := 3

/-- `#define SEQUENCE_HISTORY_SIZE 10` (part_000 line 21). -/
def SEQUENCE_HISTORY_SIZE : Nat := 10

/-- Wrapping `uint32` subtraction `a - b`, as used for all time arithmetic
in the source (`current_time - last_seen`, `current_time - last_send_time`,
and so on). -/
def sub32 (a b : Nat) : Nat :=
  (a % 2 ^ 32 + (2 ^ 32 - b % 2 ^ 32)) % 2 ^ 32

/-- `bt_addr_le_t`: one byte of address type plus the six bytes of `a.val`.
`bt_addr_le_cmp` is equality of all seven bytes, embedded as `DecidableEq`. -/
structure BtAddrLE where
  ty : Nat
  val : List Nat
deriving DecidableEq

/-- `struct beacon_info` (part_000 lines 24-35). Field for field:
`addr`, `rssi` (an `int8_t`, kept as `Int`), `last_seen` (`uint32`),
`is_valid`, `ttl`, `last_sequence`, `sequence_history` (ten bytes),
`history_index`, `temperature` (`int16_t`, kept as `Int`), `voltage`
(`uint16_t`). -/
structure BeaconInfo where
  addr : BtAddrLE
  rssi : Int
  lastSeen : Nat
  isValid : Bool
  ttl : Nat
  lastSequence : Nat
  seqHistory : List Nat
  historyIndex : Nat
  temperature : Int
  voltage : Nat
deriving DecidableEq

/-- A zeroed `struct beacon_info`, as produced by the static zero
initialisation of `beacon_queue` (part_000 line 39); also used as the
out-of-range default for `List.getD` reads of the queue. -/
def emptyBeacon : BeaconInfo :=
  { addr := ⟨0, [0, 0, 0, 0, 0, 0]⟩
    rssi := 0
    lastSeen := 0
    isValid := false
    ttl := 0
    lastSequence := 0
    seqHistory := List.replicate SEQUENCE_HISTORY_SIZE 0
    historyIndex := 0
    temperature := 0
    voltage := 0 }

/-- The initial (all-invalid) `beacon_queue`. -/
def emptyQueue : List BeaconInfo := List.replicate MAX_BEACONS emptyBeacon

/-- Number of valid records in the queue (the spec's "store size"). -/
def validCount (q : List BeaconInfo) : Nat :=
  (q.filter (fun b => b.isValid)).length

/-- Index of the first list element satisfying `p`; specification helper
used to characterise the slot-scanning loop of `find_or_update_beacon`. -/
def firstIdxWhere (p : BeaconInfo → Bool) : List BeaconInfo → Option Nat
  | [] => none
  | b :: rest => if p b then some 0 else (firstIdxWhere p rest).map (· + 1)

/-- Predicate for "this valid slot holds `addr`", the match test of the
scanning loop (part_000 line 82). -/
def slotMatches (addr : BtAddrLE) (b : BeaconInfo) : Bool :=
  b.isValid && decide (b.addr = addr)

/-- Predicate for "this slot is free" (part_000 line 75). -/
def slotFree (b : BeaconInfo) : Bool :=
  !b.isValid

/-- `is_duplicate_sequence` (part_000 lines 528-539): a sequence value is a
duplicate if it equals `last_sequence` or appears anywhere in
`sequence_history`. -/
def is_duplicate_sequence (b : BeaconInfo) (sequence : Nat) : Bool :=
  if sequence = b.lastSequence then true
  else b.seqHistory.any (fun s => s == sequence)

/-- `update_sequence_history` (part_000 lines 542-547): record `sequence`
at `history_index`, advance the ring index modulo
`SEQUENCE_HISTORY_SIZE`, and set `last_sequence`. -/
def update_sequence_history (b : BeaconInfo) (sequence : Nat) : BeaconInfo :=
  { b with
    lastSequence := sequence
    seqHistory := b.seqHistory.set b.historyIndex sequence
    historyIndex := (b.historyIndex + 1) % SEQUENCE_HISTORY_SIZE }

/-- The scanning loop of `find_or_update_beacon` (part_000 lines 74-86):
walk the queue accumulating the first free slot, and stop at the first
valid slot whose address matches. Returns `(empty_slot, existing_slot)`. -/
def findSlotsAux (addr : BtAddrLE) : List BeaconInfo → Nat → Option Nat → Option Nat × Option Nat
  | [], _, emptySlot => (emptySlot, none)
  | b :: rest, i, emptySlot =>
    if !b.isValid then
      findSlotsAux addr rest (i + 1)
        (match emptySlot with
         | some e => some e
         | none => some i)
    else if b.addr = addr then (emptySlot, some i)
    else findSlotsAux addr rest (i + 1) emptySlot

/-- Entry point of the scanning loop, starting at slot 0 with no free slot
recorded yet. -/
def findSlots (addr : BtAddrLE) (q : List BeaconInfo) : Option Nat × Option Nat :=
  findSlotsAux addr q 0 none

/-- `find_or_update_beacon` (part_000 lines 67-120), the store upsert.
`now` stands for the `k_uptime_get_32()` read at function entry.
Existing address: a duplicate sequence is a no-op returning the slot;
otherwise `last_seen`, `ttl`, `temperature` and `voltage` are refreshed and
the sequence is recorded (`rssi` is not touched on this path).  New
address: the first free slot is initialised, with the sequence history
zeroed and `sequence` placed at position 0.  Full store: `none`
(the C code's `-1`). -/
def find_or_update_beacon (now : Nat) (q : List BeaconInfo) (addr : BtAddrLE)
    (rssi : Int) (ttl : Nat) (sequence : Nat) (temperature : Int) (voltage : Nat) :
    List BeaconInfo × Option Nat :=
  match findSlots addr q with
  | (_, some existingSlot) =>
    let b := q.getD existingSlot emptyBeacon
    if is_duplicate_sequence b sequence then (q, some existingSlot)
    else
      (q.set existingSlot
        (update_sequence_history
          { b with
            lastSeen := now
            ttl := ttl
            temperature := temperature
            voltage := voltage } sequence),
       some existingSlot)
  | (some emptySlot, none) =>
    (q.set emptySlot
      { addr := addr
        rssi := rssi
        lastSeen := now
        isValid := true
        ttl := ttl
        lastSequence := sequence
        seqHistory := (List.replicate SEQUENCE_HISTORY_SIZE 0).set 0 sequence
        historyIndex := 1
        temperature := temperature
        voltage := voltage }, some emptySlot)
  | (none, none) => (q, none)

/-- `cleanup_old_beacons` (part_000 lines 550-563): invalidate every valid
record not seen for `TIME_THRESHOLD * 2` milliseconds or more. -/
def cleanup_old_beacons (now : Nat) (q : List BeaconInfo) : List BeaconInfo :=
  q.map (fun b =>
    if b.isValid && decide (TIME_THRESHOLD * 2 ≤ sub32 now b.lastSeen) then
      { b with isValid := false }
    else b)

/-- One advertisement-data element as delivered by the TLV walk in
`device_found` (part_000 lines 178-219): the raw length byte `len`
(type byte plus data), the AD type byte, and the `len - 1` data bytes.
Out-of-range data reads (the code indexes `data[3]` and `data[4]` under a
`len >= 3` guard only) are modelled by `List.getD _ _ 0`. -/
structure AdElem where
  len : Nat
  ty : Nat
  data : List Nat
deriving DecidableEq

/-- The fields `device_found` extracts from an advertisement before
storing the sighting: `sequence`, `ttl`, `temperature`, `voltage`. -/
structure Sighting where
  sequence : Nat
  ttl : Nat
  temperature : Int
  voltage : Nat
deriving DecidableEq

/-- Reinterpretation of a 16-bit wire value as the C `int16_t`
(`temperature = (data[6] << 8) | data[7]`, part_000 line 210). -/
def toI16 (n : Nat) : Int :=
  if n % 65536 < 32768 then (n % 65536 : Nat) else (n % 65536 : Nat) - 65536

/-- The AD-walking loop of `device_found` (part_000 lines 178-219).
A manufacturer-data element (`BT_DATA_MANUFACTURER_DATA = 0xFF`,
`len >= 3`) carrying the relay magic `59 00 08` overwrites `sequence`
with `data[3]` and `ttl` with `data[4]` decremented when positive
(lines 190-194).  An Eddystone TLM service-data element
(`BT_DATA_SVC_DATA16 = 0x16`, `len >= 11`, magic `AA FE 20`) overwrites
`voltage` and `temperature` (lines 199-210).  Anything else is skipped. -/
def parseAdLoop : List AdElem → Sighting → Sighting
  | [], acc => acc
  | e :: rest, acc =>
    if e.ty = 0xFF ∧ 3 ≤ e.len then
      if e.data.getD 0 0 = 0x59 ∧ e.data.getD 1 0 = 0x00 ∧ e.data.getD 2 0 = 0x08 then
        let wire := e.data.getD 4 0
        parseAdLoop rest
          { acc with
            sequence := e.data.getD 3 0
            ttl := if 0 < wire then wire - 1 else wire }
      else parseAdLoop rest acc
    else if e.ty = 0x16 ∧ 11 ≤ e.len then
      if e.data.getD 0 0 = 0xAA ∧ e.data.getD 1 0 = 0xFE ∧ e.data.getD 2 0 = 0x20 then
        parseAdLoop rest
          { acc with
            voltage := (e.data.getD 4 0 % 256) * 256 + e.data.getD 5 0 % 256
            temperature := toI16 ((e.data.getD 6 0 % 256) * 256 + e.data.getD 7 0 % 256) }
      else parseAdLoop rest acc
    else parseAdLoop rest acc

/-- The sighting `device_found` builds for an advertisement: the loop above
started from the defaults `ttl = INITIAL_TTL`, `sequence = 0`,
`temperature = 0`, `voltage = 0` (part_000 lines 160-163). -/
def device_found_parse (elems : List AdElem) : Sighting :=
  parseAdLoop elems { sequence := 0, ttl := INITIAL_TTL, temperature := 0, voltage := 0 }

/-- Specification helper: the wire TTL byte of the last relay
(manufacturer-data, magic `59 00 08`) element of the advertisement, the
one whose values survive the loop. -/
def lastRelayTtl : List AdElem → Option Nat
  | [] => none
  | e :: rest =>
    match lastRelayTtl rest with
    | some w => some w
    | none =>
      if e.ty = 0xFF ∧ 3 ≤ e.len ∧ e.data.getD 0 0 = 0x59 ∧ e.data.getD 1 0 = 0x00 ∧
          e.data.getD 2 0 = 0x08 then
        some (e.data.getD 4 0)
      else none

/-- The mutable module state of part_000 that the claims mention:
`beacon_queue`, `active_adv_sets`, `adv_set_active_bitfield` (as a bit
mask), the `static` `global_sequence` counter of `send_adv_data`,
`last_send_time`, `last_successful_operation` and
`beacons_since_last_check`. -/
structure RelayState where
  queue : List BeaconInfo
  activeAdvSets : Nat
  advBitfield : Nat
  globalSequence : Nat
  lastSendTime : Nat
  lastSuccess : Nat
  beaconsSinceCheck : Nat
deriving DecidableEq

/-- The low byte of an `int8_t`/byte store, i.e. the two's-complement
byte written by `*ptr++ = rssi`. -/
def u8 (r : Int) : Nat :=
  (r % 256).toNat

/-- The two bytes `v & 0xFF`, `(v >> 8) & 0xFF` of a `uint16_t`. -/
def u16bytes (v : Nat) : List Nat :=
  [v % 256, v / 256 % 256]

/-- The two bytes `t & 0xFF`, `(t >> 8) & 0xFF` of an `int16_t`
(two's complement). -/
def i16bytes (t : Int) : List Nat :=
  [(t % 65536).toNat % 256, (t % 65536).toNat / 256 % 256]

/-- The six bytes `memcpy(ptr, addr.a.val, 6)` copies for an address. -/
def addrBytes (a : BtAddrLE) : List Nat :=
  [a.val.getD 0 0, a.val.getD 1 0, a.val.getD 2 0, a.val.getD 3 0, a.val.getD 4 0,
   a.val.getD 5 0]

/-- The twelve bytes one queue record contributes to the outbound buffer
(part_000 lines 318-325): 6 address bytes, RSSI, TTL, temperature low and
high, voltage low and high. -/
def entryBytes (b : BeaconInfo) : List Nat :=
  addrBytes b.addr ++ [u8 b.rssi, b.ttl] ++ i16bytes b.temperature ++ u16bytes b.voltage

/-- The packing eligibility test of the queue loop (part_000 lines
315-317): valid, last seen at least `TIME_THRESHOLD` ago, and `ttl > 0`. -/
def sendEligible (now : Nat) (b : BeaconInfo) : Bool :=
  b.isValid && decide (TIME_THRESHOLD ≤ sub32 now b.lastSeen) && decide (0 < b.ttl)

/-- Number of queue records the serializer would currently accept; the
spec's `count_eligible(now)`, built from the source's eligibility test. -/
def countEligible (now : Nat) (q : List BeaconInfo) : Nat :=
  (q.filter (sendEligible now)).length

/-- Result of the queue-packing loop: the bytes appended to the buffer,
the consumed slot indices, the updated queue, and the final
`beacons_sent` counter. -/
structure PackOut where
  bytes : List Nat
  consumed : List Nat
  queue : List BeaconInfo
  sent : Nat
deriving DecidableEq

/-- The queue-packing loop of `send_adv_data` (part_000 lines 312-339):
iterate slots while `i < MAX_BEACONS`, `beacons_sent <
MAX_BEACONS_PER_SET` and `end - ptr >= BEACON_DATA_SIZE`; each eligible
record contributes `entryBytes` (twelve bytes) and is marked invalid in
place. `space` is the pointer difference `end - ptr`. -/
def packLoop (now : Nat) : List BeaconInfo → Nat → Nat → Int → PackOut
  | [], _, sent, _ => ⟨[], [], [], sent⟩
  | b :: rest, i, sent, space =>
    if i < MAX_BEACONS ∧ sent < MAX_BEACONS_PER_SET ∧ (BEACON_DATA_SIZE : Int) ≤ space then
      if sendEligible now b then
        let r := packLoop now rest (i + 1) (sent + 1) (space - 12)
        ⟨entryBytes b ++ r.bytes, i :: r.consumed, { b with isValid := false } :: r.queue, r.sent⟩
      else
        let r := packLoop now rest (i + 1) sent space
        ⟨r.bytes, r.consumed, b :: r.queue, r.sent⟩
    else ⟨[], [], b :: rest, sent⟩

/-- First advertising set whose bit in `adv_set_active_bitfield` is clear
(part_000 lines 269-275). -/
def freeSet (bitfield : Nat) : Option Nat :=
  (List.range MAX_ADV_SETS).find? (fun i => !bitfield.testBit i)

/-- The address under which `send_adv_data` upserts the synthetic test
device: the code casts the six-byte array `TEST_DEVICE_ADDR` to
`bt_addr_le_t *` (part_000 line 303), so the `type` field reads `0xF6`,
the first five value bytes read `E5 D4 C3 B2 A1`, and the sixth value
byte is the out-of-bounds stack byte following the array, passed here as
the parameter `junk`. -/
def testCastAddr (junk : Nat) : BtAddrLE :=
  ⟨0xF6, [0xE5, 0xD4, 0xC3, 0xB2, 0xA1, junk]⟩

/-- The twelve buffer bytes of the synthetic test-device entry (part_000
lines 284-297): address `F6 E5 D4 C3 B2 A1`, RSSI byte `-20`, TTL
`INITIAL_TTL`, then temperature `17664` and voltage `5000` as
little-endian `uint16` pairs. -/
def testEntryBytes : List Nat :=
  [0xF6, 0xE5, 0xD4, 0xC3, 0xB2, 0xA1] ++ [u8 (-20), INITIAL_TTL] ++
    u16bytes 17664 ++ u16bytes 5000

/-- Result of `send_adv_data`: the state after the call, the produced
buffer (`none` on the two `-EBUSY` exits), the consumed queue slot
indices, and `beacons_sent`. -/
structure SendResult where
  state : RelayState
  buffer : Option (List Nat)
  consumed : List Nat
  sent : Nat
deriving DecidableEq

/-- `send_adv_data` (part_000 lines 238-365).  In order: the
`active_adv_sets > 0` busy exit; the `static` sequence increment (a
`uint8_t`, wrapping at 256); the five header bytes
`59 00 08 seq INITIAL_TTL`; the search for an inactive advertising set
(busy exit when none); the test-device block, which writes
`testEntryBytes` and upserts the test device into the queue with RSSI 0
(`*(ptr - 4)` re-reads the temperature low byte, which is `0x00`); the
queue-packing loop; and finally the transport hand-off, modelled as
succeeding, which sets the chosen set's bit and increments
`active_adv_sets`. -/
def send_adv_data (junk now : Nat) (s : RelayState) : SendResult :=
  if 0 < s.activeAdvSets then ⟨s, none, [], 0⟩
  else
    let gseq := (s.globalSequence + 1) % 256
    let s1 : RelayState := { s with globalSequence := gseq }
    match freeSet s1.advBitfield with
    | none => ⟨s1, none, [], 0⟩
    | some setToUse =>
      let header : List Nat := [0x59, 0x00, 0x08, gseq, INITIAL_TTL]
      let spaceAfterHeader : Int := (MAX_EXT_ADV_DATA_LEN : Int) - header.length
      let addTest : Bool := decide ((BEACON_DATA_SIZE : Int) + 4 ≤ spaceAfterHeader)
      let testEntry : List Nat := if addTest then testEntryBytes else []
      let q1 : List BeaconInfo :=
        if addTest then
          (find_or_update_beacon now s1.queue (testCastAddr junk) 0 INITIAL_TTL gseq
            17664 5000).1
        else s1.queue
      let r := packLoop now q1 0 0 (spaceAfterHeader - testEntry.length)
      ⟨{ s1 with
          queue := r.queue
          advBitfield := Nat.lor s1.advBitfield (2 ^ setToUse)
          activeAdvSets := s1.activeAdvSets + 1 },
        some (header ++ testEntry ++ r.bytes), r.consumed, r.sent⟩

/-- `recover_from_hang` (part_000 lines 494-525), synchronous effects on
the core state: every advertising set is stopped and its bit cleared,
`active_adv_sets` is zeroed, `beacons_since_last_check` and
`last_send_time` are reset.  The Bluetooth restart and scan restart are
external transport calls; `bt_ready` runs asynchronously later.  The
beacon queue is not touched. -/
def recover_from_hang (s : RelayState) : RelayState :=
  { s with
    advBitfield := 0
    activeAdvSets := 0
    beaconsSinceCheck := 0
    lastSendTime := 0 }

/-- Result of one `check_and_send` tick: the state, whether the send
attempt succeeded (`err == 0`), whether recovery was triggered, and the
buffer produced by a successful send. -/
structure TickResult where
  state : RelayState
  sent : Bool
  recovered : Bool
  buffer : Option (List Nat)
deriving DecidableEq

/-- `check_and_send` (part_000 lines 368-400): run
`cleanup_old_beacons`; if `current_time - last_send_time >=
MAX_WAIT_TIME_MS`, attempt `send_adv_data`, and on success set
`last_successful_operation` and `last_send_time` to `current_time`;
finally, if `current_time - last_successful_operation >
RECOVERY_TIMEOUT_MS`, run `recover_from_hang`. -/
def check_and_send (junk now : Nat) (s : RelayState) : TickResult :=
  let s1 : RelayState := { s with queue := cleanup_old_beacons now s.queue }
  let step : RelayState × Bool × Option (List Nat) :=
    if MAX_WAIT_TIME_MS ≤ sub32 now s1.lastSendTime then
      let r := send_adv_data junk now s1
      match r.buffer with
      | some b => ({ r.state with lastSuccess := now, lastSendTime := now }, true, some b)
      | none => (r.state, false, none)
    else (s1, false, none)
  if RECOVERY_TIMEOUT_MS < sub32 now step.1.lastSuccess then
    ⟨recover_from_hang step.1, step.2.1, true, step.2.2⟩
  else
    ⟨step.1, step.2.1, false, step.2.2⟩

/-- One upsert's worth of arguments, for stating store properties about
sequences of calls to `find_or_update_beacon`. -/
structure Obs where
  addr : BtAddrLE
  rssi : Int
  ttl : Nat
  sequence : Nat
  temperature : Int
  voltage : Nat
  time : Nat
deriving DecidableEq

/-- Default `Obs`, for out-of-range `List.getD` reads. -/
def dfltObs : Obs :=
  { addr := ⟨0, [0, 0, 0, 0, 0, 0]⟩, rssi := 0, ttl := 0, sequence := 0,
    temperature := 0, voltage := 0, time := 0 }

/-- Fold a sequence of upserts over the store. -/
def upsertAll : List Obs → List BeaconInfo → List BeaconInfo
  | [], q => q
  | o :: rest, q =>
    upsertAll rest
      (find_or_update_beacon o.time q o.addr o.rssi o.ttl o.sequence o.temperature o.voltage).1

/-- The record the new-address branch of `find_or_update_beacon` writes
for the sighting `o`. -/
def mkRec (o : Obs) : BeaconInfo :=
  { addr := o.addr
    rssi := o.rssi
    lastSeen := o.time
    isValid := true
    ttl := o.ttl
    lastSequence := o.sequence
    seqHistory := (List.replicate SEQUENCE_HISTORY_SIZE 0).set 0 o.sequence
    historyIndex := 1
    temperature := o.temperature
    voltage := o.voltage }

/-- The store after upserting the distinct fresh sightings `pre` into the
empty queue: their records occupy the leading slots in arrival order,
the remaining slots are still zeroed. -/
def filledQueue (pre : List Obs) : List BeaconInfo :=
  pre.map mkRec ++ List.replicate (MAX_BEACONS - pre.length) emptyBeacon

/-- Concrete eligible queue record used by witnesses: valid, last seen at
time 0, two relay hops left. -/
def wRec : BeaconInfo :=
  { addr := ⟨0, [1, 2, 3, 4, 5, 6]⟩
    rssi := -40
    lastSeen := 0
    isValid := true
    ttl := 2
    lastSequence := 7
    seqHistory := (List.replicate SEQUENCE_HISTORY_SIZE 0).set 0 7
    historyIndex := 1
    temperature := 100
    voltage := 3000 }

/-- A queue holding `wRec` in slot 0 and 99 free slots. -/
def wQueue : List BeaconInfo := wRec :: List.replicate 99 emptyBeacon

/-- Concrete idle state with `wQueue`, used by several witnesses. -/
def wState : RelayState :=
  { queue := wQueue, activeAdvSets := 0, advBitfield := 0, globalSequence := 0,
    lastSendTime := 0, lastSuccess := 6000, beaconsSinceCheck := 0 }

/-- Variant of `wState` whose only record has `ttl = 0`. -/
def wStateTtl0 : RelayState :=
  { wState with queue := { wRec with ttl := 0 } :: List.replicate 99 emptyBeacon }

/-- State with three serializer-eligible records but only 2000 ms since the
last send: the scheduler claim predicts a flush here, the code refuses. -/
def cexState6 : RelayState :=
  { queue := List.replicate 3 wRec ++ List.replicate 97 emptyBeacon,
    activeAdvSets := 0, advBitfield := 0, globalSequence := 0,
    lastSendTime := 4000, lastSuccess := 6000, beaconsSinceCheck := 0 }

/-- State whose slot 0 holds the record the serializer's own test-device
upsert matches (address `testCastAddr 0`), seen 3000 ms ago. -/
def cexState10 : RelayState :=
  { queue :=
      { addr := testCastAddr 0, rssi := -30, lastSeen := 2000, isValid := true,
        ttl := 3, lastSequence := 1,
        seqHistory := (List.replicate SEQUENCE_HISTORY_SIZE 0).set 0 1,
        historyIndex := 1, temperature := 0, voltage := 0 } ::
        List.replicate 99 emptyBeacon,
    activeAdvSets := 0, advBitfield := 0, globalSequence := 4,
    lastSendTime := 0, lastSuccess := 0, beaconsSinceCheck := 0 }

/-- State for the watchdog witness: both advertising sets active, last send
2000 ms ago (no attempt due), last success 6000 ms ago (stale). -/
def wState8 : RelayState :=
  { queue := wQueue, activeAdvSets := 2, advBitfield := 3, globalSequence := 0,
    lastSendTime := 4000, lastSuccess := 0, beaconsSinceCheck := 0 }

/-- A fresh address not present in `wQueue`. -/
def wAddr2 : BtAddrLE := ⟨0, [9, 9, 9, 9, 9, 9]⟩

/-- 101 sightings with pairwise distinct addresses, for the capacity
witness. -/
def wObsList : List Obs :=
  (List.range (MAX_BEACONS + 1)).map
    (fun n => { dfltObs with addr := ⟨0, [n % 256, n / 256 % 256, 0, 0, 0, 0]⟩ })

/-- A relayed advertisement element: manufacturer data with the relay
magic `59 00 08`, sequence 9 and wire TTL 3. -/
def wRelayElem : AdElem := ⟨10, 0xFF, [0x59, 0x00, 0x08, 9, 3, 0, 0, 0, 0]⟩

/-! ### General list lemmas -/

theorem getD_set_self {α : Type} (d x : α) :
    ∀ (q : List α) (i : Nat), i < q.length → (q.set i x).getD i d = x := by
  intro q
  induction q with
  | nil => intro i h; simp at h
  | cons b rest ih =>
    intro i h
    cases i with
    | zero => rfl
    | succ j => simpa using ih j (by simpa using h)

theorem getD_set_ne {α : Type} (d x : α) :
    ∀ (q : List α) (i j : Nat), i ≠ j → (q.set i x).getD j d = q.getD j d := by
  intro q
  induction q with
  | nil => intro i j _; rfl
  | cons b rest ih =>
    intro i j hne
    cases i with
    | zero =>
      cases j with
      | zero => exact absurd rfl hne
      | succ j' => rfl
    | succ i' =>
      cases j with
      | zero => rfl
      | succ j' => simpa using ih i' j' (fun h => hne (by simp [h]))

theorem getD_append_left {α : Type} (d : α) :
    ∀ (A B : List α) (j : Nat), j < A.length → (A ++ B).getD j d = A.getD j d := by
  intro A
  induction A with
  | nil => intro B j h; simp at h
  | cons a rest ih =>
    intro B j h
    cases j with
    | zero => rfl
    | succ j' => simpa using ih B j' (by simpa using h)

theorem getD_append_right {α : Type} (d : α) :
    ∀ (A B : List α) (j : Nat), A.length ≤ j → (A ++ B).getD j d = B.getD (j - A.length) d := by
  intro A
  induction A with
  | nil => intro B j _; simp
  | cons a rest ih =>
    intro B j h
    cases j with
    | zero => simp at h
    | succ j' => simpa using ih B j' (by simpa using h)

theorem getD_replicate {α : Type} (d x : α) :
    ∀ (m j : Nat), j < m → (List.replicate m x).getD j d = x := by
  intro m
  induction m with
  | zero => intro j h; simp at h
  | succ m' ih =>
    intro j h
    cases j with
    | zero => rfl
    | succ j' => simpa [List.replicate_succ] using ih j' (by omega)

theorem getD_map_mkRec (d : BeaconInfo) (e : Obs) :
    ∀ (l : List Obs) (j : Nat), j < l.length →
      (l.map mkRec).getD j d = mkRec (l.getD j e) := by
  intro l
  induction l with
  | nil => intro j h; simp at h
  | cons o rest ih =>
    intro j h
    cases j with
    | zero => rfl
    | succ j' => simpa using ih j' (by simpa using h)

theorem getD_mem {α : Type} (d : α) :
    ∀ (l : List α) (i : Nat), i < l.length → l.getD i d ∈ l := by
  intro l
  induction l with
  | nil => intro i h; simp at h
  | cons a rest ih =>
    intro i h
    cases i with
    | zero => simp [List.getD]
    | succ j =>
      have := ih j (by simpa using h)
      simp [List.getD] at this ⊢
      exact Or.inr this

theorem set_append_len {α : Type} (x : α) :
    ∀ (A B : List α), (A ++ B).set A.length x = A ++ B.set 0 x := by
  intro A
  induction A with
  | nil => intro B; simp
  | cons a rest ih => intro B; simp [ih]

/-! ### `sub32` lemmas -/

theorem sub32_self (a : Nat) : sub32 a a = 0 := by
  have h : a % 2 ^ 32 < 2 ^ 32 := Nat.mod_lt _ (by norm_num)
  unfold sub32
  omega

theorem sub32_of_le (a b : Nat) (ha : a < 2 ^ 32) (hba : b ≤ a) : sub32 a b = a - b := by
  unfold sub32
  have hb : b < 2 ^ 32 := lt_of_le_of_lt hba ha
  rw [Nat.mod_eq_of_lt ha, Nat.mod_eq_of_lt hb]
  omega

/-! ### Characterisation of the slot scan -/

theorem firstIdxWhere_eq_some (p : BeaconInfo → Bool) :
    ∀ (q : List BeaconInfo) (i : Nat),
      firstIdxWhere p q = some i ↔
        i < q.length ∧ p (q.getD i emptyBeacon) = true ∧
          ∀ j, j < i → p (q.getD j emptyBeacon) = false := by
  intro q
  induction q with
  | nil => intro i; simp [firstIdxWhere]
  | cons b rest ih =>
    intro i
    by_cases hb : p b
    · simp only [firstIdxWhere, hb, if_pos]
      constructor
      · rintro h
        cases h
        exact ⟨by simp, by simpa [List.getD] using hb, fun j hj => by omega⟩
      · rintro ⟨_, _, hall⟩
        cases i with
        | zero => rfl
        | succ i' =>
          have := hall 0 (by omega)
          simp [List.getD] at this
          rw [this] at hb
          exact absurd hb (by simp)
    · simp only [firstIdxWhere, hb, if_neg, Bool.false_eq_true, not_false_iff]
      constructor
      · intro h
        cases i with
        | zero =>
          exfalso
          cases hfi : firstIdxWhere p rest with
          | none => rw [hfi] at h; simp at h
          | some k => rw [hfi] at h; simp at h
        | succ i' =>
          have hsome : firstIdxWhere p rest = some i' := by
            cases hfi : firstIdxWhere p rest with
            | none => rw [hfi] at h; simp at h
            | some k =>
              rw [hfi] at h
              simp at h
              simp [h]
          have := (ih i').1 hsome
          refine ⟨by simpa using this.1, by simpa [List.getD] using this.2.1, ?_⟩
          intro j hj
          cases j with
          | zero => simpa [List.getD] using hb
          | succ j' => simpa [List.getD] using this.2.2 j' (by omega)
      · rintro ⟨hlen, hp, hall⟩
        cases i with
        | zero =>
          simp [List.getD] at hp
          rw [hp] at hb
          exact absurd hb (by simp)
        | succ i' =>
          have hsome : firstIdxWhere p rest = some i' := by
            refine (ih i').2 ⟨by simpa using hlen, by simpa [List.getD] using hp, ?_⟩
            intro j hj
            simpa [List.getD] using hall (j + 1) (by omega)
          simp [hsome]

theorem firstIdxWhere_eq_none (p : BeaconInfo → Bool) :
    ∀ (q : List BeaconInfo),
      firstIdxWhere p q = none ↔
        ∀ j, j < q.length → p (q.getD j emptyBeacon) = false := by
  intro q
  induction q with
  | nil => simp [firstIdxWhere]
  | cons b rest ih =>
    by_cases hb : p b
    · simp only [firstIdxWhere, hb, if_pos]
      constructor
      · intro h; simp at h
      · intro hall
        have := hall 0 (by simp)
        simp [List.getD] at this
        rw [this] at hb
        exact absurd hb (by simp)
    · simp only [firstIdxWhere, hb, if_neg, Bool.false_eq_true, not_false_iff]
      constructor
      · intro h j hj
        have hrest : firstIdxWhere p rest = none := by
          cases hfi : firstIdxWhere p rest with
          | none => rfl
          | some k => rw [hfi] at h; simp at h
        cases j with
        | zero => simpa [List.getD] using hb
        | succ j' => simpa [List.getD] using ih.1 hrest j' (by simpa using hj)
      · intro hall
        have hrest : firstIdxWhere p rest = none := by
          refine ih.2 ?_
          intro j hj
          simpa [List.getD] using hall (j + 1) (by simp only [List.length_cons]; omega)
        simp [hrest]

theorem findSlotsAux_cons_free (addr : BtAddrLE) (b : BeaconInfo) (rest : List BeaconInfo)
    (n : Nat) (acc : Option Nat) (hv : b.isValid = false) :
    findSlotsAux addr (b :: rest) n acc
      = findSlotsAux addr rest (n + 1)
          (match acc with
           | some e => some e
           | none => some n) := by
  simp [findSlotsAux, hv]

theorem findSlotsAux_cons_match (addr : BtAddrLE) (b : BeaconInfo) (rest : List BeaconInfo)
    (n : Nat) (acc : Option Nat) (hv : b.isValid = true) (ha : b.addr = addr) :
    findSlotsAux addr (b :: rest) n acc = (acc, some n) := by
  simp [findSlotsAux, hv, ha]

theorem findSlotsAux_cons_other (addr : BtAddrLE) (b : BeaconInfo) (rest : List BeaconInfo)
    (n : Nat) (acc : Option Nat) (hv : b.isValid = true) (ha : ¬ b.addr = addr) :
    findSlotsAux addr (b :: rest) n acc = findSlotsAux addr rest (n + 1) acc := by
  simp [findSlotsAux, hv, ha]

theorem firstIdxWhere_cons_pos (p : BeaconInfo → Bool) (b : BeaconInfo)
    (rest : List BeaconInfo) (hp : p b = true) :
    firstIdxWhere p (b :: rest) = some 0 := by
  simp [firstIdxWhere, hp]

theorem firstIdxWhere_cons_neg (p : BeaconInfo → Bool) (b : BeaconInfo)
    (rest : List BeaconInfo) (hp : p b = false) :
    firstIdxWhere p (b :: rest) = (firstIdxWhere p rest).map (· + 1) := by
  simp [firstIdxWhere, hp]

theorem findSlotsAux_snd (addr : BtAddrLE) :
    ∀ (q : List BeaconInfo) (n : Nat) (acc : Option Nat),
      (findSlotsAux addr q n acc).2
        = (firstIdxWhere (slotMatches addr) q).map (fun i => n + i) := by
  intro q
  induction q with
  | nil => intro n acc; simp [findSlotsAux, firstIdxWhere]
  | cons b rest ih =>
    intro n acc
    by_cases hv : b.isValid
    · by_cases ha : b.addr = addr
      · rw [findSlotsAux_cons_match addr b rest n acc hv ha,
          firstIdxWhere_cons_pos _ _ _ (by simp [slotMatches, hv, ha])]
        simp
      · rw [findSlotsAux_cons_other addr b rest n acc hv ha,
          firstIdxWhere_cons_neg _ _ _ (by simp [slotMatches, ha]), ih]
        cases firstIdxWhere (slotMatches addr) rest with
        | none => simp
        | some k => simp; omega
    · rw [findSlotsAux_cons_free addr b rest n acc (by simpa using hv),
        firstIdxWhere_cons_neg _ _ _ (by simp [slotMatches, hv]), ih]
      cases firstIdxWhere (slotMatches addr) rest with
      | none => simp
      | some k => simp; omega

theorem findSlotsAux_fst_of_no_match (addr : BtAddrLE) :
    ∀ (q : List BeaconInfo) (n : Nat) (acc : Option Nat),
      firstIdxWhere (slotMatches addr) q = none →
      (findSlotsAux addr q n acc).1
        = (match acc with
           | some e => some e
           | none => (firstIdxWhere slotFree q).map (fun i => n + i)) := by
  intro q
  induction q with
  | nil =>
    intro n acc _
    cases acc <;> simp [findSlotsAux, firstIdxWhere]
  | cons b rest ih =>
    intro n acc hnm
    by_cases hv : b.isValid
    · have ha : ¬ b.addr = addr := by
        intro h
        rw [firstIdxWhere_cons_pos _ _ _ (by simp [slotMatches, hv, h])] at hnm
        simp at hnm
      have hrest : firstIdxWhere (slotMatches addr) rest = none := by
        rw [firstIdxWhere_cons_neg _ _ _ (by simp [slotMatches, ha])] at hnm
        cases hfi : firstIdxWhere (slotMatches addr) rest with
        | none => rfl
        | some k => rw [hfi] at hnm; simp at hnm
      rw [findSlotsAux_cons_other addr b rest n acc hv ha, ih (n + 1) acc hrest,
        firstIdxWhere_cons_neg slotFree _ _ (by simp [slotFree, hv])]
      cases acc with
      | some e => rfl
      | none =>
        cases firstIdxWhere slotFree rest with
        | none => simp
        | some k => simp; omega
    · have hrest : firstIdxWhere (slotMatches addr) rest = none := by
        rw [firstIdxWhere_cons_neg _ _ _ (by simp [slotMatches, hv])] at hnm
        cases hfi : firstIdxWhere (slotMatches addr) rest with
        | none => rfl
        | some k => rw [hfi] at hnm; simp at hnm
      rw [findSlotsAux_cons_free addr b rest n acc (by simpa using hv),
        ih (n + 1) _ hrest, firstIdxWhere_cons_pos slotFree _ _ (by simp [slotFree, hv])]
      cases acc with
      | some e => rfl
      | none => simp

theorem findSlots_snd (addr : BtAddrLE) (q : List BeaconInfo) :
    (findSlots addr q).2 = firstIdxWhere (slotMatches addr) q := by
  unfold findSlots
  rw [findSlotsAux_snd]
  cases firstIdxWhere (slotMatches addr) q <;> simp

theorem findSlots_fst_of_none (addr : BtAddrLE) (q : List BeaconInfo)
    (h : firstIdxWhere (slotMatches addr) q = none) :
    (findSlots addr q).1 = firstIdxWhere slotFree q := by
  unfold findSlots
  rw [findSlotsAux_fst_of_no_match addr q 0 none h]
  cases firstIdxWhere slotFree q <;> simp

/-! ### Elementary facts about the store operations -/

theorem getD_cons_zero {α : Type} (a d : α) (l : List α) : (a :: l).getD 0 d = a := rfl

theorem getD_cons_succ {α : Type} (a d : α) (l : List α) (n : Nat) :
    (a :: l).getD (n + 1) d = l.getD n d := rfl


/-! ### Step equations for the store upsert -/

theorem upsert_eq_dup (now : Nat) (q : List BeaconInfo) (addr : BtAddrLE) (rssi : Int)
    (ttl seq : Nat) (temp : Int) (volt : Nat) (i : Nat)
    (hfs : (findSlots addr q).2 = some i)
    (hdup : is_duplicate_sequence (q.getD i emptyBeacon) seq = true) :
    find_or_update_beacon now q addr rssi ttl seq temp volt = (q, some i) := by
  rcases hq : findSlots addr q with ⟨fst, snd⟩
  rw [hq] at hfs
  simp only at hfs
  subst hfs
  have hdup2 : is_duplicate_sequence (q[i]?.getD emptyBeacon) seq = true := by
    rw [← List.getD_eq_getElem?_getD]; exact hdup
  simp [find_or_update_beacon, hq, hdup2]

theorem upsert_eq_update (now : Nat) (q : List BeaconInfo) (addr : BtAddrLE) (rssi : Int)
    (ttl seq : Nat) (temp : Int) (volt : Nat) (i : Nat)
    (hfs : (findSlots addr q).2 = some i)
    (hdup : is_duplicate_sequence (q.getD i emptyBeacon) seq = false) :
    find_or_update_beacon now q addr rssi ttl seq temp volt
      = (q.set i
          (update_sequence_history
            { q.getD i emptyBeacon with
              lastSeen := now
              ttl := ttl
              temperature := temp
              voltage := volt } seq), some i) := by
  rcases hq : findSlots addr q with ⟨fst, snd⟩
  rw [hq] at hfs
  simp only at hfs
  subst hfs
  have hdup2 : is_duplicate_sequence (q[i]?.getD emptyBeacon) seq = false := by
    rw [← List.getD_eq_getElem?_getD]; exact hdup
  simp [find_or_update_beacon, hq, hdup2]

theorem upsert_eq_new (now : Nat) (q : List BeaconInfo) (addr : BtAddrLE) (rssi : Int)
    (ttl seq : Nat) (temp : Int) (volt : Nat) (e : Nat)
    (hsnd : (findSlots addr q).2 = none)
    (hfst : (findSlots addr q).1 = some e) :
    find_or_update_beacon now q addr rssi ttl seq temp volt
      = (q.set e
          { addr := addr
            rssi := rssi
            lastSeen := now
            isValid := true
            ttl := ttl
            lastSequence := seq
            seqHistory := (List.replicate SEQUENCE_HISTORY_SIZE 0).set 0 seq
            historyIndex := 1
            temperature := temp
            voltage := volt }, some e) := by
  rcases hq : findSlots addr q with ⟨fst, snd⟩
  rw [hq] at hsnd hfst
  simp only at hsnd hfst
  subst hsnd
  subst hfst
  simp [find_or_update_beacon, hq]

theorem upsert_eq_full (now : Nat) (q : List BeaconInfo) (addr : BtAddrLE) (rssi : Int)
    (ttl seq : Nat) (temp : Int) (volt : Nat)
    (hsnd : (findSlots addr q).2 = none)
    (hfst : (findSlots addr q).1 = none) :
    find_or_update_beacon now q addr rssi ttl seq temp volt = (q, none) := by
  rcases hq : findSlots addr q with ⟨fst, snd⟩
  rw [hq] at hsnd hfst
  simp only at hsnd hfst
  subst hsnd
  subst hfst
  simp [find_or_update_beacon, hq]

theorem upsert_length (now : Nat) (q : List BeaconInfo) (addr : BtAddrLE) (rssi : Int)
    (ttl seq : Nat) (temp : Int) (volt : Nat) :
    (find_or_update_beacon now q addr rssi ttl seq temp volt).1.length = q.length := by
  cases hsnd : (findSlots addr q).2 with
  | some i =>
    by_cases hdup : is_duplicate_sequence (q.getD i emptyBeacon) seq = true
    · rw [upsert_eq_dup now q addr rssi ttl seq temp volt i hsnd hdup]
    · rw [upsert_eq_update now q addr rssi ttl seq temp volt i hsnd
        (by simpa using hdup)]
      simp
  | none =>
    cases hfst : (findSlots addr q).1 with
    | some e =>
      rw [upsert_eq_new now q addr rssi ttl seq temp volt e hsnd hfst]
      simp
    | none =>
      rw [upsert_eq_full now q addr rssi ttl seq temp volt hsnd hfst]

theorem upsertAll_length :
    ∀ (obs : List Obs) (q : List BeaconInfo), (upsertAll obs q).length = q.length := by
  intro obs
  induction obs with
  | nil => intro q; rfl
  | cons o rest ih => intro q; rw [upsertAll, ih, upsert_length]

theorem validCount_le (q : List BeaconInfo) : validCount q ≤ q.length :=
  List.length_filter_le _ q

theorem cleanup_length (now : Nat) (q : List BeaconInfo) :
    (cleanup_old_beacons now q).length = q.length := by
  simp [cleanup_old_beacons]

theorem cleanup_getD (now : Nat) :
    ∀ (q : List BeaconInfo) (i : Nat),
      (cleanup_old_beacons now q).getD i emptyBeacon
        = (if (q.getD i emptyBeacon).isValid &&
              decide (TIME_THRESHOLD * 2 ≤ sub32 now (q.getD i emptyBeacon).lastSeen) then
             { q.getD i emptyBeacon with isValid := false }
           else q.getD i emptyBeacon) := by
  intro q
  induction q with
  | nil =>
    intro i
    simp [cleanup_old_beacons, List.getD, emptyBeacon]
  | cons b rest ih =>
    intro i
    cases i with
    | zero => simp [cleanup_old_beacons, List.getD]
    | succ j =>
      simpa [cleanup_old_beacons, getD_cons_succ] using ih j

/-! ### Step equations and facts for the packing loop -/

theorem entryBytes_length (b : BeaconInfo) : (entryBytes b).length = 12 := by
  simp [entryBytes, addrBytes, u16bytes, i16bytes]

theorem packLoop_cons_hit (now : Nat) (b : BeaconInfo) (rest : List BeaconInfo)
    (i sent : Nat) (space : Int)
    (hc : i < MAX_BEACONS ∧ sent < MAX_BEACONS_PER_SET ∧ (BEACON_DATA_SIZE : Int) ≤ space)
    (he : sendEligible now b = true) :
    packLoop now (b :: rest) i sent space
      = ⟨entryBytes b ++ (packLoop now rest (i + 1) (sent + 1) (space - 12)).bytes,
         i :: (packLoop now rest (i + 1) (sent + 1) (space - 12)).consumed,
         { b with isValid := false } :: (packLoop now rest (i + 1) (sent + 1) (space - 12)).queue,
         (packLoop now rest (i + 1) (sent + 1) (space - 12)).sent⟩ := by
  simp [packLoop, hc, he]

theorem packLoop_cons_skip (now : Nat) (b : BeaconInfo) (rest : List BeaconInfo)
    (i sent : Nat) (space : Int)
    (hc : i < MAX_BEACONS ∧ sent < MAX_BEACONS_PER_SET ∧ (BEACON_DATA_SIZE : Int) ≤ space)
    (he : sendEligible now b = false) :
    packLoop now (b :: rest) i sent space
      = ⟨(packLoop now rest (i + 1) sent space).bytes,
         (packLoop now rest (i + 1) sent space).consumed,
         b :: (packLoop now rest (i + 1) sent space).queue,
         (packLoop now rest (i + 1) sent space).sent⟩ := by
  simp [packLoop, hc, he]

theorem packLoop_cons_stop (now : Nat) (b : BeaconInfo) (rest : List BeaconInfo)
    (i sent : Nat) (space : Int)
    (hc : ¬ (i < MAX_BEACONS ∧ sent < MAX_BEACONS_PER_SET ∧ (BEACON_DATA_SIZE : Int) ≤ space)) :
    packLoop now (b :: rest) i sent space = ⟨[], [], b :: rest, sent⟩ := by
  simp [packLoop, hc]

theorem packLoop_bytes (now : Nat) :
    ∀ (q : List BeaconInfo) (i sent : Nat) (space : Int),
      space % 12 = 6 → 0 ≤ space →
      ((packLoop now q i sent space).bytes.length : Int) ≤ space - 6 ∧
      (packLoop now q i sent space).bytes.length
        = 12 * ((packLoop now q i sent space).sent - sent) ∧
      sent ≤ (packLoop now q i sent space).sent := by
  intro q
  induction q with
  | nil =>
    intro i sent space hmod hpos
    refine ⟨?_, by simp [packLoop], by simp [packLoop]⟩
    simp only [packLoop, List.length_nil]
    omega
  | cons b rest ih =>
    intro i sent space hmod hpos
    by_cases hc : i < MAX_BEACONS ∧ sent < MAX_BEACONS_PER_SET ∧ (BEACON_DATA_SIZE : Int) ≤ space
    · by_cases he : sendEligible now b = true
      · have hsp : (7 : Int) ≤ space := by
          have := hc.2.2
          simpa [BEACON_DATA_SIZE] using this
        have hm2 : (space - 12) % 12 = 6 := by omega
        have hp2 : 0 ≤ space - 12 := by omega
        have hrec := ih (i + 1) (sent + 1) (space - 12) hm2 hp2
        rw [packLoop_cons_hit now b rest i sent space hc he]
        simp only [List.length_append, entryBytes_length]
        refine ⟨by omega, by omega, by omega⟩
      · have hrec := ih (i + 1) sent space hmod hpos
        rw [packLoop_cons_skip now b rest i sent space hc (by simpa using he)]
        exact hrec
    · rw [packLoop_cons_stop now b rest i sent space hc]
      refine ⟨?_, by simp, le_refl _⟩
      simp only [List.length_nil]
      omega

theorem packLoop_queue_length (now : Nat) :
    ∀ (q : List BeaconInfo) (i sent : Nat) (space : Int),
      (packLoop now q i sent space).queue.length = q.length := by
  intro q
  induction q with
  | nil => intro i sent space; simp [packLoop]
  | cons b rest ih =>
    intro i sent space
    by_cases hc : i < MAX_BEACONS ∧ sent < MAX_BEACONS_PER_SET ∧ (BEACON_DATA_SIZE : Int) ≤ space
    · by_cases he : sendEligible now b = true
      · rw [packLoop_cons_hit now b rest i sent space hc he]
        simp [ih]
      · rw [packLoop_cons_skip now b rest i sent space hc (by simpa using he)]
        simp [ih]
    · rw [packLoop_cons_stop now b rest i sent space hc]

theorem packLoop_consumed (now : Nat) :
    ∀ (q : List BeaconInfo) (i0 sent : Nat) (space : Int) (j : Nat),
      j ∈ (packLoop now q i0 sent space).consumed →
      i0 ≤ j ∧ sendEligible now (q.getD (j - i0) emptyBeacon) = true ∧
        ((packLoop now q i0 sent space).queue.getD (j - i0) emptyBeacon).isValid = false := by
  intro q
  induction q with
  | nil =>
    intro i0 sent space j hj
    simp [packLoop] at hj
  | cons b rest ih =>
    intro i0 sent space j hj
    by_cases hc : i0 < MAX_BEACONS ∧ sent < MAX_BEACONS_PER_SET ∧ (BEACON_DATA_SIZE : Int) ≤ space
    · by_cases he : sendEligible now b = true
      · rw [packLoop_cons_hit now b rest i0 sent space hc he] at hj ⊢
        simp only [List.mem_cons] at hj
        rcases hj with hj | hj
        · subst hj
          refine ⟨le_refl _, ?_, ?_⟩
          · simpa [getD_cons_zero] using he
          · simp [getD_cons_zero]
        · have hrec := ih (i0 + 1) (sent + 1) (space - 12) j hj
          have h1 : i0 + 1 ≤ j := hrec.1
          have hsub : j - i0 = (j - (i0 + 1)) + 1 := by omega
          refine ⟨by omega, ?_, ?_⟩
          · rw [hsub, getD_cons_succ]; exact hrec.2.1
          · rw [hsub, getD_cons_succ]; exact hrec.2.2
      · rw [packLoop_cons_skip now b rest i0 sent space hc (by simpa using he)] at hj ⊢
        have hrec := ih (i0 + 1) sent space j hj
        have h1 : i0 + 1 ≤ j := hrec.1
        have hsub : j - i0 = (j - (i0 + 1)) + 1 := by omega
        refine ⟨by omega, ?_, ?_⟩
        · rw [hsub, getD_cons_succ]; exact hrec.2.1
        · rw [hsub, getD_cons_succ]; exact hrec.2.2
    · rw [packLoop_cons_stop now b rest i0 sent space hc] at hj
      simp at hj

theorem packLoop_preserve (now : Nat) :
    ∀ (q : List BeaconInfo) (i0 sent : Nat) (space : Int) (j : Nat),
      sendEligible now (q.getD j emptyBeacon) = false →
      ¬ (i0 + j) ∈ (packLoop now q i0 sent space).consumed ∧
      (packLoop now q i0 sent space).queue.getD j emptyBeacon = q.getD j emptyBeacon := by
  intro q
  induction q with
  | nil =>
    intro i0 sent space j _
    simp [packLoop]
  | cons b rest ih =>
    intro i0 sent space j hne
    by_cases hc : i0 < MAX_BEACONS ∧ sent < MAX_BEACONS_PER_SET ∧ (BEACON_DATA_SIZE : Int) ≤ space
    · by_cases he : sendEligible now b = true
      · cases j with
        | zero =>
          rw [getD_cons_zero] at hne
          rw [hne] at he
          exact absurd he (by simp)
        | succ k =>
          rw [getD_cons_succ] at hne
          have hrec := ih (i0 + 1) (sent + 1) (space - 12) k hne
          rw [packLoop_cons_hit now b rest i0 sent space hc he]
          constructor
          · simp only [List.mem_cons]
            rintro (h | h)
            · omega
            · exact hrec.1 (by rw [show i0 + 1 + k = i0 + (k + 1) from by omega]; exact h)
          · rw [getD_cons_succ, getD_cons_succ]
            exact hrec.2
      · cases j with
        | zero =>
          rw [packLoop_cons_skip now b rest i0 sent space hc (by simpa using he)]
          constructor
          · intro hmem
            have := (packLoop_consumed now rest (i0 + 1) sent space (i0 + 0) hmem).1
            omega
          · rw [getD_cons_zero, getD_cons_zero]
        | succ k =>
          rw [getD_cons_succ] at hne
          have hrec := ih (i0 + 1) sent space k hne
          rw [packLoop_cons_skip now b rest i0 sent space hc (by simpa using he)]
          constructor
          · intro hmem
            exact hrec.1 (by rw [show i0 + 1 + k = i0 + (k + 1) from by omega]; exact hmem)
          · rw [getD_cons_succ, getD_cons_succ]
            exact hrec.2
    · rw [packLoop_cons_stop now b rest i0 sent space hc]
      simp

theorem testEntryBytes_length : testEntryBytes.length = 12 := by
  simp [testEntryBytes, u16bytes]

theorem send_adv_data_busy1 (junk now : Nat) (s : RelayState)
    (hact : 0 < s.activeAdvSets) :
    send_adv_data junk now s = ⟨s, none, [], 0⟩ := by
  simp [send_adv_data, hact]

theorem send_adv_data_busy2 (junk now : Nat) (s : RelayState)
    (hact : ¬ 0 < s.activeAdvSets) (hfree : freeSet s.advBitfield = none) :
    send_adv_data junk now s
      = ⟨{ s with globalSequence := (s.globalSequence + 1) % 256 }, none, [], 0⟩ := by
  simp [send_adv_data, hact, hfree]

set_option maxRecDepth 8000 in
theorem send_adv_data_run (junk now : Nat) (s : RelayState) (k : Nat)
    (hact : ¬ 0 < s.activeAdvSets) (hfree : freeSet s.advBitfield = some k) :
    send_adv_data junk now s
      = ⟨{ s with
            globalSequence := (s.globalSequence + 1) % 256
            queue := (packLoop now
              (find_or_update_beacon now s.queue (testCastAddr junk) 0 INITIAL_TTL
                ((s.globalSequence + 1) % 256) 17664 5000).1 0 0 174).queue
            advBitfield := Nat.lor s.advBitfield (2 ^ k)
            activeAdvSets := s.activeAdvSets + 1 },
          some ([0x59, 0x00, 0x08, (s.globalSequence + 1) % 256, INITIAL_TTL]
            ++ testEntryBytes
            ++ (packLoop now
              (find_or_update_beacon now s.queue (testCastAddr junk) 0 INITIAL_TTL
                ((s.globalSequence + 1) % 256) 17664 5000).1 0 0 174).bytes),
          (packLoop now
            (find_or_update_beacon now s.queue (testCastAddr junk) 0 INITIAL_TTL
              ((s.globalSequence + 1) % 256) 17664 5000).1 0 0 174).consumed,
          (packLoop now
            (find_or_update_beacon now s.queue (testCastAddr junk) 0 INITIAL_TTL
              ((s.globalSequence + 1) % 256) 17664 5000).1 0 0 174).sent⟩ := by
  simp [send_adv_data, hact, hfree, BEACON_DATA_SIZE, MAX_EXT_ADV_DATA_LEN,
    testEntryBytes_length]

theorem findSlots_some_spec (addr : BtAddrLE) (q : List BeaconInfo) (i : Nat)
    (h : (findSlots addr q).2 = some i) :
    i < q.length ∧ (q.getD i emptyBeacon).isValid = true ∧
      (q.getD i emptyBeacon).addr = addr ∧
      ∀ j, j < i → slotMatches addr (q.getD j emptyBeacon) = false := by
  rw [findSlots_snd] at h
  have hs := (firstIdxWhere_eq_some (slotMatches addr) q i).1 h
  have hm := hs.2.1
  simp only [slotMatches, Bool.and_eq_true, decide_eq_true_eq] at hm
  exact ⟨hs.1, hm.1, hm.2, hs.2.2⟩

theorem findSlots_new_spec (addr : BtAddrLE) (q : List BeaconInfo) (e : Nat)
    (hsnd : (findSlots addr q).2 = none)
    (hfst : (findSlots addr q).1 = some e) :
    e < q.length ∧ (q.getD e emptyBeacon).isValid = false ∧
      (∀ j, j < q.length → slotMatches addr (q.getD j emptyBeacon) = false) := by
  rw [findSlots_snd] at hsnd
  have hall := (firstIdxWhere_eq_none (slotMatches addr) q).1 hsnd
  rw [findSlots_fst_of_none addr q hsnd] at hfst
  have hs := (firstIdxWhere_eq_some slotFree q e).1 hfst
  have hf := hs.2.1
  simp only [slotFree, Bool.not_eq_true'] at hf
  exact ⟨hs.1, hf, hall⟩

theorem upsert_getD_cases (now : Nat) (q : List BeaconInfo) (addr : BtAddrLE) (rssi : Int)
    (ttl seq : Nat) (temp : Int) (volt : Nat) (i : Nat) :
    (find_or_update_beacon now q addr rssi ttl seq temp volt).1.getD i emptyBeacon
      = q.getD i emptyBeacon ∨
    ((find_or_update_beacon now q addr rssi ttl seq temp volt).1.getD i emptyBeacon).lastSeen
      = now := by
  cases hsnd : (findSlots addr q).2 with
  | some j =>
    by_cases hdup : is_duplicate_sequence (q.getD j emptyBeacon) seq = true
    · rw [upsert_eq_dup now q addr rssi ttl seq temp volt j hsnd hdup]
      exact Or.inl rfl
    · rw [upsert_eq_update now q addr rssi ttl seq temp volt j hsnd (by simpa using hdup)]
      by_cases hij : i = j
      · subst hij
        right
        rw [getD_set_self _ _ q i (findSlots_some_spec addr q i hsnd).1]
        simp [update_sequence_history]
      · left
        exact getD_set_ne _ _ q j i (fun h => hij h.symm)
  | none =>
    cases hfst : (findSlots addr q).1 with
    | some e =>
      rw [upsert_eq_new now q addr rssi ttl seq temp volt e hsnd hfst]
      by_cases hie : i = e
      · subst hie
        right
        rw [getD_set_self _ _ q i (findSlots_new_spec addr q i hsnd hfst).1]
      · left
        exact getD_set_ne _ _ q e i (fun h => hie h.symm)
    | none =>
      rw [upsert_eq_full now q addr rssi ttl seq temp volt hsnd hfst]
      exact Or.inl rfl

theorem upsert_preserves (now : Nat) (q : List BeaconInfo) (addr : BtAddrLE) (rssi : Int)
    (ttl seq : Nat) (temp : Int) (volt : Nat) (i : Nat)
    (hv : (q.getD i emptyBeacon).isValid = true)
    (ha : (q.getD i emptyBeacon).addr ≠ addr) :
    (find_or_update_beacon now q addr rssi ttl seq temp volt).1.getD i emptyBeacon
      = q.getD i emptyBeacon := by
  cases hsnd : (findSlots addr q).2 with
  | some j =>
    have hspec := findSlots_some_spec addr q j hsnd
    by_cases hdup : is_duplicate_sequence (q.getD j emptyBeacon) seq = true
    · rw [upsert_eq_dup now q addr rssi ttl seq temp volt j hsnd hdup]
    · rw [upsert_eq_update now q addr rssi ttl seq temp volt j hsnd (by simpa using hdup)]
      have hij : i ≠ j := by
        intro h
        subst h
        exact ha hspec.2.2.1
      exact getD_set_ne _ _ q j i (fun h => hij h.symm)
  | none =>
    cases hfst : (findSlots addr q).1 with
    | some e =>
      have hspec := findSlots_new_spec addr q e hsnd hfst
      rw [upsert_eq_new now q addr rssi ttl seq temp volt e hsnd hfst]
      have hie : i ≠ e := by
        intro h
        subst h
        rw [hv] at hspec
        simpa using hspec.2.1
      exact getD_set_ne _ _ q e i (fun h => hie h.symm)
    | none =>
      rw [upsert_eq_full now q addr rssi ttl seq temp volt hsnd hfst]

theorem send_busy_state (junk now : Nat) (s : RelayState)
    (h : (send_adv_data junk now s).buffer = none) :
    (send_adv_data junk now s).state.queue = s.queue ∧
    (send_adv_data junk now s).state.lastSuccess = s.lastSuccess ∧
    (send_adv_data junk now s).state.lastSendTime = s.lastSendTime ∧
    (send_adv_data junk now s).consumed = [] := by
  by_cases hact : 0 < s.activeAdvSets
  · rw [send_adv_data_busy1 junk now s hact]
    exact ⟨rfl, rfl, rfl, rfl⟩
  · cases hfree : freeSet s.advBitfield with
    | none =>
      rw [send_adv_data_busy2 junk now s hact hfree]
      exact ⟨rfl, rfl, rfl, rfl⟩
    | some k =>
      rw [send_adv_data_run junk now s k hact hfree] at h
      simp at h

theorem check_and_send_noattempt (junk now : Nat) (s : RelayState)
    (h : ¬ MAX_WAIT_TIME_MS ≤ sub32 now s.lastSendTime) :
    check_and_send junk now s
      = (if RECOVERY_TIMEOUT_MS < sub32 now s.lastSuccess then
          ⟨recover_from_hang { s with queue := cleanup_old_beacons now s.queue },
            false, true, none⟩
         else ⟨{ s with queue := cleanup_old_beacons now s.queue }, false, false, none⟩) := by
  simp only [check_and_send]
  rw [if_neg h]

theorem check_and_send_attempt_ok (junk now : Nat) (s : RelayState) (b : List Nat)
    (h : MAX_WAIT_TIME_MS ≤ sub32 now s.lastSendTime)
    (hb : (send_adv_data junk now { s with queue := cleanup_old_beacons now s.queue }).buffer
      = some b) :
    check_and_send junk now s
      = ⟨{ (send_adv_data junk now { s with queue := cleanup_old_beacons now s.queue }).state with
            lastSuccess := now, lastSendTime := now }, true, false, some b⟩ := by
  simp only [check_and_send]
  rw [if_pos h, hb]
  simp only
  rw [sub32_self]
  rw [if_neg (by simp [RECOVERY_TIMEOUT_MS])]

theorem check_and_send_attempt_fail (junk now : Nat) (s : RelayState)
    (h : MAX_WAIT_TIME_MS ≤ sub32 now s.lastSendTime)
    (hb : (send_adv_data junk now { s with queue := cleanup_old_beacons now s.queue }).buffer
      = none) :
    check_and_send junk now s
      = (if RECOVERY_TIMEOUT_MS < sub32 now
            (send_adv_data junk now { s with queue := cleanup_old_beacons now s.queue
              }).state.lastSuccess then
          ⟨recover_from_hang
            (send_adv_data junk now { s with queue := cleanup_old_beacons now s.queue }).state,
            false, true, none⟩
         else
          ⟨(send_adv_data junk now { s with queue := cleanup_old_beacons now s.queue }).state,
            false, false, none⟩) := by
  simp only [check_and_send]
  rw [if_pos h, hb]

/-! ### Claim theorems -/

/-- C1: every buffer `send_adv_data` produces has length equal to the
5-byte header plus the 12-byte test entry plus 12 bytes per packed
record, and never exceeds `MAX_EXT_ADV_DATA_LEN = 191`: the loop stops
before any entry could overflow the remaining space. -/
theorem claim1_pack_length_bound (junk now : Nat) (s : RelayState) (b : List Nat)
    (h : (send_adv_data junk now s).buffer = some b) :
    b.length = 17 + 12 * (send_adv_data junk now s).sent ∧
    b.length ≤ MAX_EXT_ADV_DATA_LEN := by
  by_cases hact : 0 < s.activeAdvSets
  · rw [send_adv_data_busy1 junk now s hact] at h
    simp at h
  · cases hfree : freeSet s.advBitfield with
    | none =>
      rw [send_adv_data_busy2 junk now s hact hfree] at h
      simp at h
    | some k =>
      rw [send_adv_data_run junk now s k hact hfree] at h ⊢
      have hb : b = [0x59, 0x00, 0x08, (s.globalSequence + 1) % 256, INITIAL_TTL]
          ++ testEntryBytes
          ++ (packLoop now
            (find_or_update_beacon now s.queue (testCastAddr junk) 0 INITIAL_TTL
              ((s.globalSequence + 1) % 256) 17664 5000).1 0 0 174).bytes := by
        simpa using h.symm
      have hp := packLoop_bytes now
        (find_or_update_beacon now s.queue (testCastAddr junk) 0 INITIAL_TTL
          ((s.globalSequence + 1) % 256) 17664 5000).1 0 0 174 (by decide) (by decide)
      rw [hb]
      simp only [List.length_append, testEntryBytes_length, List.length_cons,
        List.length_nil, MAX_EXT_ADV_DATA_LEN]
      constructor
      · omega
      · omega

/-- C2 counterexample: the serializer is not pure with respect to the
store.  On a concrete state with one eligible record, `send_adv_data`
flips the record's `is_valid` flag, so the store is mutated by the
pack itself, not by the caller. -/
theorem claim2_cex_store_mutated :
    (wState.queue.getD 0 emptyBeacon).isValid = true ∧
    (send_adv_data 0 6000 wState).state.queue ≠ wState.queue ∧
    ((send_adv_data 0 6000 wState).state.queue.getD 0 emptyBeacon).isValid = false := by
  decide

/-- C2 amended: `send_adv_data` mutates the store itself: every consumed
slot is marked invalid in the state it returns (and the test device is
upserted); the caller performs no further store update. -/
theorem claim2_amended_consumed_invalidated (junk now : Nat) (s : RelayState) (i : Nat)
    (h : i ∈ (send_adv_data junk now s).consumed) :
    ((send_adv_data junk now s).state.queue.getD i emptyBeacon).isValid = false := by
  by_cases hact : 0 < s.activeAdvSets
  · rw [send_adv_data_busy1 junk now s hact] at h
    simp at h
  · cases hfree : freeSet s.advBitfield with
    | none =>
      rw [send_adv_data_busy2 junk now s hact hfree] at h
      simp at h
    | some k =>
      rw [send_adv_data_run junk now s k hact hfree] at h ⊢
      have := (packLoop_consumed now
        (find_or_update_beacon now s.queue (testCastAddr junk) 0 INITIAL_TTL
          ((s.globalSequence + 1) % 256) 17664 5000).1 0 0 174 i h).2.2
      simpa using this

/-- C9: every buffer the serializer produces starts with the five header
bytes `59 00 08 seq ttl` followed immediately by the synthetic
test-device entry, whose first six bytes are the hard-coded address
`F6 E5 D4 C3 B2 A1`; real beacon entries only follow it. -/
theorem claim9_test_device_entry (junk now : Nat) (s : RelayState) (b : List Nat)
    (h : (send_adv_data junk now s).buffer = some b) :
    ∃ rest, b = [0x59, 0x00, 0x08, (s.globalSequence + 1) % 256, INITIAL_TTL]
      ++ testEntryBytes ++ rest := by
  by_cases hact : 0 < s.activeAdvSets
  · rw [send_adv_data_busy1 junk now s hact] at h
    simp at h
  · cases hfree : freeSet s.advBitfield with
    | none =>
      rw [send_adv_data_busy2 junk now s hact hfree] at h
      simp at h
    | some k =>
      rw [send_adv_data_run junk now s k hact hfree] at h
      exact ⟨_, by simpa using h.symm⟩

theorem claim1_witness :
    ((send_adv_data 0 6000 wState).buffer.getD []).length
      = 17 + 12 * (send_adv_data 0 6000 wState).sent ∧
    ((send_adv_data 0 6000 wState).buffer.getD []).length ≤ MAX_EXT_ADV_DATA_LEN :=
  claim1_pack_length_bound 0 6000 wState _ (by decide)

theorem claim2_witness :
    ((send_adv_data 0 6000 wState).state.queue.getD 0 emptyBeacon).isValid = false :=
  claim2_amended_consumed_invalidated 0 6000 wState 0 (by decide)

theorem claim9_witness :
    ∃ rest, (send_adv_data 0 6000 wState).buffer.getD []
      = [0x59, 0x00, 0x08, (wState.globalSequence + 1) % 256, INITIAL_TTL]
        ++ testEntryBytes ++ rest :=
  claim9_test_device_entry 0 6000 wState _ (by decide)

theorem parseAdLoop_cons_relay (e : AdElem) (rest : List AdElem) (acc : Sighting)
    (hA : e.ty = 0xFF ∧ 3 ≤ e.len)
    (hB : e.data.getD 0 0 = 0x59 ∧ e.data.getD 1 0 = 0x00 ∧ e.data.getD 2 0 = 0x08) :
    parseAdLoop (e :: rest) acc
      = parseAdLoop rest
          { acc with
            sequence := e.data.getD 3 0
            ttl := if 0 < e.data.getD 4 0 then e.data.getD 4 0 - 1 else e.data.getD 4 0 } := by
  simp only [parseAdLoop]
  rw [if_pos hA, if_pos hB]

theorem parseAdLoop_cons_other_ttl (e : AdElem) (rest : List AdElem) (acc : Sighting)
    (hne : ¬ ((e.ty = 0xFF ∧ 3 ≤ e.len) ∧
      e.data.getD 0 0 = 0x59 ∧ e.data.getD 1 0 = 0x00 ∧ e.data.getD 2 0 = 0x08)) :
    ∃ acc2 : Sighting, parseAdLoop (e :: rest) acc = parseAdLoop rest acc2 ∧
      acc2.ttl = acc.ttl := by
  simp only [parseAdLoop]
  by_cases h1 : e.ty = 0xFF ∧ 3 ≤ e.len
  · rw [if_pos h1]
    by_cases h2 : e.data.getD 0 0 = 0x59 ∧ e.data.getD 1 0 = 0x00 ∧ e.data.getD 2 0 = 0x08
    · exact absurd ⟨h1, h2⟩ hne
    · rw [if_neg h2]
      exact ⟨acc, rfl, rfl⟩
  · rw [if_neg h1]
    by_cases h3 : e.ty = 0x16 ∧ 11 ≤ e.len
    · rw [if_pos h3]
      by_cases h4 : e.data.getD 0 0 = 0xAA ∧ e.data.getD 1 0 = 0xFE ∧ e.data.getD 2 0 = 0x20
      · rw [if_pos h4]
        exact ⟨_, rfl, rfl⟩
      · rw [if_neg h4]
        exact ⟨acc, rfl, rfl⟩
    · rw [if_neg h3]
      exact ⟨acc, rfl, rfl⟩

theorem lastRelayTtl_cons_relay (e : AdElem) (rest : List AdElem)
    (hA : e.ty = 0xFF ∧ 3 ≤ e.len)
    (hB : e.data.getD 0 0 = 0x59 ∧ e.data.getD 1 0 = 0x00 ∧ e.data.getD 2 0 = 0x08) :
    lastRelayTtl (e :: rest)
      = (match lastRelayTtl rest with
         | some w => some w
         | none => some (e.data.getD 4 0)) := by
  simp only [lastRelayTtl]
  cases hr : lastRelayTtl rest with
  | some w => rfl
  | none => rw [if_pos ⟨hA.1, hA.2, hB.1, hB.2.1, hB.2.2⟩]

theorem lastRelayTtl_cons_other (e : AdElem) (rest : List AdElem)
    (hne : ¬ ((e.ty = 0xFF ∧ 3 ≤ e.len) ∧
      e.data.getD 0 0 = 0x59 ∧ e.data.getD 1 0 = 0x00 ∧ e.data.getD 2 0 = 0x08)) :
    lastRelayTtl (e :: rest) = lastRelayTtl rest := by
  have hcond : ¬ (e.ty = 0xFF ∧ 3 ≤ e.len ∧ e.data.getD 0 0 = 0x59 ∧
      e.data.getD 1 0 = 0x00 ∧ e.data.getD 2 0 = 0x08) := by
    intro h
    exact hne ⟨⟨h.1, h.2.1⟩, h.2.2⟩
  simp only [lastRelayTtl]
  cases hr : lastRelayTtl rest with
  | some w => rfl
  | none => rw [if_neg hcond]

theorem parse_ttl_none :
    ∀ (elems : List AdElem) (acc : Sighting),
      lastRelayTtl elems = none → (parseAdLoop elems acc).ttl = acc.ttl := by
  intro elems
  induction elems with
  | nil => intro acc _; rfl
  | cons e rest ih =>
    intro acc hnone
    by_cases hrel : (e.ty = 0xFF ∧ 3 ≤ e.len) ∧
        e.data.getD 0 0 = 0x59 ∧ e.data.getD 1 0 = 0x00 ∧ e.data.getD 2 0 = 0x08
    · exfalso
      rw [lastRelayTtl_cons_relay e rest hrel.1 hrel.2] at hnone
      cases hr : lastRelayTtl rest with
      | some w => rw [hr] at hnone; simp at hnone
      | none => rw [hr] at hnone; simp at hnone
    · rw [lastRelayTtl_cons_other e rest hrel] at hnone
      obtain ⟨acc2, heq, httl⟩ := parseAdLoop_cons_other_ttl e rest acc hrel
      rw [heq, ih acc2 hnone, httl]

theorem parse_ttl_some :
    ∀ (elems : List AdElem) (w : Nat) (acc : Sighting),
      lastRelayTtl elems = some w → (parseAdLoop elems acc).ttl = w - 1 := by
  intro elems
  induction elems with
  | nil => intro w acc h; simp [lastRelayTtl] at h
  | cons e rest ih =>
    intro w acc hsome
    by_cases hrel : (e.ty = 0xFF ∧ 3 ≤ e.len) ∧
        e.data.getD 0 0 = 0x59 ∧ e.data.getD 1 0 = 0x00 ∧ e.data.getD 2 0 = 0x08
    · rw [lastRelayTtl_cons_relay e rest hrel.1 hrel.2] at hsome
      rw [parseAdLoop_cons_relay e rest acc hrel.1 hrel.2]
      cases hr : lastRelayTtl rest with
      | some wr =>
        rw [hr] at hsome
        have hww : wr = w := Option.some.inj hsome
        subst hww
        exact ih wr _ hr
      | none =>
        rw [hr] at hsome
        have hw : e.data.getD 4 0 = w := Option.some.inj hsome
        rw [parse_ttl_none rest _ hr]
        simp only
        rw [← hw]
        split
        · rfl
        · omega
    · rw [lastRelayTtl_cons_other e rest hrel] at hsome
      obtain ⟨acc2, heq, _⟩ := parseAdLoop_cons_other_ttl e rest acc hrel
      rw [heq]
      exact ih w acc2 hsome

/-- C5: a sighting that arrives via relay (manufacturer data with the
`59 00 08` magic) is stored with the wire TTL decremented by one and
never below zero (`Nat` subtraction), so TTL never increases across
hops; and a record whose stored `ttl` is zero is never consumed by the
serializer. -/
theorem claim5_ttl_relay :
    (∀ (elems : List AdElem) (w : Nat), lastRelayTtl elems = some w →
      (device_found_parse elems).ttl = w - 1 ∧
      (0 < w → (device_found_parse elems).ttl < w)) ∧
    (∀ (junk now : Nat) (s : RelayState) (i : Nat),
      (s.queue.getD i emptyBeacon).ttl = 0 →
      ¬ i ∈ (send_adv_data junk now s).consumed) := by
  constructor
  · intro elems w h
    have h1 : (device_found_parse elems).ttl = w - 1 := by
      simp only [device_found_parse]
      exact parse_ttl_some elems w _ h
    exact ⟨h1, fun hw => by rw [h1]; omega⟩
  · intro junk now s i h0
    by_cases hact : 0 < s.activeAdvSets
    · rw [send_adv_data_busy1 junk now s hact]
      simp
    · cases hfree : freeSet s.advBitfield with
      | none =>
        rw [send_adv_data_busy2 junk now s hact hfree]
        simp
      | some k =>
        rw [send_adv_data_run junk now s k hact hfree]
        intro hmem
        have hel := (packLoop_consumed now
          (find_or_update_beacon now s.queue (testCastAddr junk) 0 INITIAL_TTL
            ((s.globalSequence + 1) % 256) 17664 5000).1 0 0 174 i hmem).2.1
        rw [Nat.sub_zero] at hel
        rcases upsert_getD_cases now s.queue (testCastAddr junk) 0 INITIAL_TTL
            ((s.globalSequence + 1) % 256) 17664 5000 i with hsame | hnow
        · rw [hsame] at hel
          simp only [sendEligible, Bool.and_eq_true, decide_eq_true_eq] at hel
          rw [h0] at hel
          exact absurd hel.2 (by decide)
        · simp only [sendEligible, Bool.and_eq_true, decide_eq_true_eq] at hel
          rw [hnow, sub32_self] at hel
          exact absurd hel.1.2 (by decide)

theorem claim5_witness :
    (device_found_parse [wRelayElem]).ttl = 3 - 1 ∧
    ¬ 0 ∈ (send_adv_data 0 6000 wStateTtl0).consumed :=
  ⟨(claim5_ttl_relay.1 [wRelayElem] 3 (by decide)).1,
   claim5_ttl_relay.2 0 6000 wStateTtl0 0 (by decide)⟩

/-- C10 counterexample: a valid, relay-eligible record seen 3000 ms ago
(more recently than `TIME_THRESHOLD`) whose address equals the one the
test-device upsert uses is *not* left unchanged by the flush: the
serializer's own `add_beacon` call refreshes its slot. -/
theorem claim10_cex_test_slot_refreshed :
    ((cexState10.queue.getD 0 emptyBeacon).isValid = true ∧
     sub32 5000 (cexState10.queue.getD 0 emptyBeacon).lastSeen < TIME_THRESHOLD ∧
     0 < (cexState10.queue.getD 0 emptyBeacon).ttl) ∧
    (send_adv_data 0 5000 cexState10).state.queue.getD 0 emptyBeacon
      ≠ cexState10.queue.getD 0 emptyBeacon := by
  decide

/-- C10 amended: a valid record seen more recently than `TIME_THRESHOLD`
is never packed by a flush, and — provided its address is not the
test-device address that the serializer itself upserts — its slot is
left completely unchanged. -/
theorem claim10_amended_fresh_skipped (junk now : Nat) (s : RelayState) (i : Nat)
    (hv : (s.queue.getD i emptyBeacon).isValid = true)
    (hfresh : sub32 now (s.queue.getD i emptyBeacon).lastSeen < TIME_THRESHOLD)
    (haddr : (s.queue.getD i emptyBeacon).addr ≠ testCastAddr junk) :
    ¬ i ∈ (send_adv_data junk now s).consumed ∧
    (send_adv_data junk now s).state.queue.getD i emptyBeacon
      = s.queue.getD i emptyBeacon := by
  by_cases hact : 0 < s.activeAdvSets
  · rw [send_adv_data_busy1 junk now s hact]
    simp
  · cases hfree : freeSet s.advBitfield with
    | none =>
      rw [send_adv_data_busy2 junk now s hact hfree]
      simp
    | some k =>
      rw [send_adv_data_run junk now s k hact hfree]
      have hq1 : (find_or_update_beacon now s.queue (testCastAddr junk) 0 INITIAL_TTL
          ((s.globalSequence + 1) % 256) 17664 5000).1.getD i emptyBeacon
          = s.queue.getD i emptyBeacon :=
        upsert_preserves now s.queue (testCastAddr junk) 0 INITIAL_TTL
          ((s.globalSequence + 1) % 256) 17664 5000 i hv haddr
      have hni : ¬ TIME_THRESHOLD ≤ sub32 now (s.queue.getD i emptyBeacon).lastSeen := by
        omega
      have hel : sendEligible now
          ((find_or_update_beacon now s.queue (testCastAddr junk) 0 INITIAL_TTL
            ((s.globalSequence + 1) % 256) 17664 5000).1.getD i emptyBeacon) = false := by
        rw [hq1]
        unfold sendEligible
        rw [decide_eq_false hni]
        simp
      have hp := packLoop_preserve now
        (find_or_update_beacon now s.queue (testCastAddr junk) 0 INITIAL_TTL
          ((s.globalSequence + 1) % 256) 17664 5000).1 0 0 174 i hel
      rw [Nat.zero_add] at hp
      exact ⟨hp.1, by rw [hp.2, hq1]⟩

theorem claim10_witness :
    ¬ 0 ∈ (send_adv_data 0 4000 wState).consumed ∧
    (send_adv_data 0 4000 wState).state.queue.getD 0 emptyBeacon
      = wState.queue.getD 0 emptyBeacon :=
  claim10_amended_fresh_skipped 0 4000 wState 0 (by decide) (by decide) (by decide)

/-- C4: upserting the same address with the same sequence twice is
idempotent.  If the first call stored or updated slot `i`, a second call
with the same address and sequence (any timestamp, RSSI, TTL or
telemetry values) is a no-op: it returns the same slot and leaves the
whole store exactly as the first call left it. -/
theorem claim4_idempotent_dup_upsert (now now2 : Nat) (q : List BeaconInfo)
    (addr : BtAddrLE) (rssi rssi2 : Int) (ttl ttl2 seq : Nat) (temp temp2 : Int)
    (volt volt2 : Nat) (q2 : List BeaconInfo) (i : Nat)
    (h : find_or_update_beacon now q addr rssi ttl seq temp volt = (q2, some i)) :
    find_or_update_beacon now2 q2 addr rssi2 ttl2 seq temp2 volt2 = (q2, some i) := by
  cases hsnd : (findSlots addr q).2 with
  | some j =>
    have hspec := findSlots_some_spec addr q j hsnd
    by_cases hdup : is_duplicate_sequence (q.getD j emptyBeacon) seq = true
    · rw [upsert_eq_dup now q addr rssi ttl seq temp volt j hsnd hdup] at h
      injection h with h1 h2
      injection h2 with h2
      subst h1
      subst h2
      exact upsert_eq_dup now2 q addr rssi2 ttl2 seq temp2 volt2 j hsnd hdup
    · rw [upsert_eq_update now q addr rssi ttl seq temp volt j hsnd (by simpa using hdup)] at h
      injection h with h1 h2
      injection h2 with h2
      subst h2
      subst h1
      have hset : j < q.length := hspec.1
      have hgd : (q.set j
          (update_sequence_history
            { q.getD j emptyBeacon with
              lastSeen := now, ttl := ttl, temperature := temp, voltage := volt } seq)).getD j
          emptyBeacon
          = update_sequence_history
              { q.getD j emptyBeacon with
                lastSeen := now, ttl := ttl, temperature := temp, voltage := volt } seq :=
        getD_set_self _ _ q j hset
      have hsnd2 : (findSlots addr (q.set j
          (update_sequence_history
            { q.getD j emptyBeacon with
              lastSeen := now, ttl := ttl, temperature := temp, voltage := volt } seq))).2
          = some j := by
        rw [findSlots_snd]
        apply (firstIdxWhere_eq_some _ _ j).2
        refine ⟨by rw [List.length_set]; exact hset, ?_, ?_⟩
        · rw [hgd]
          simp only [slotMatches, update_sequence_history]
          rw [show ({ q.getD j emptyBeacon with
              lastSeen := now, ttl := ttl, temperature := temp, voltage := volt
                : BeaconInfo }).isValid = (q.getD j emptyBeacon).isValid from rfl]
          rw [hspec.2.1]
          simp only [Bool.true_and, decide_eq_true_eq]
          exact hspec.2.2.1
        · intro k hk
          rw [getD_set_ne _ _ q j k (by omega)]
          exact hspec.2.2.2 k hk
      have hdup2 : is_duplicate_sequence ((q.set j
          (update_sequence_history
            { q.getD j emptyBeacon with
              lastSeen := now, ttl := ttl, temperature := temp, voltage := volt } seq)).getD j
          emptyBeacon) seq = true := by
        rw [hgd]
        simp [is_duplicate_sequence, update_sequence_history]
      exact upsert_eq_dup now2 _ addr rssi2 ttl2 seq temp2 volt2 j hsnd2 hdup2
  | none =>
    cases hfst : (findSlots addr q).1 with
    | some e =>
      have hspec := findSlots_new_spec addr q e hsnd hfst
      rw [upsert_eq_new now q addr rssi ttl seq temp volt e hsnd hfst] at h
      injection h with h1 h2
      injection h2 with h2
      subst h2
      subst h1
      have hset : e < q.length := hspec.1
      have hgd := getD_set_self emptyBeacon
        ({ addr := addr, rssi := rssi, lastSeen := now, isValid := true, ttl := ttl,
           lastSequence := seq,
           seqHistory := (List.replicate SEQUENCE_HISTORY_SIZE 0).set 0 seq,
           historyIndex := 1, temperature := temp, voltage := volt } : BeaconInfo)
        q e hset
      have hsnd2 : (findSlots addr (q.set e
          { addr := addr, rssi := rssi, lastSeen := now, isValid := true, ttl := ttl,
            lastSequence := seq,
            seqHistory := (List.replicate SEQUENCE_HISTORY_SIZE 0).set 0 seq,
            historyIndex := 1, temperature := temp, voltage := volt })).2 = some e := by
        rw [findSlots_snd]
        apply (firstIdxWhere_eq_some _ _ e).2
        refine ⟨by rw [List.length_set]; exact hset, ?_, ?_⟩
        · rw [hgd]
          simp [slotMatches]
        · intro k hk
          rw [getD_set_ne _ _ q e k (by omega)]
          exact hspec.2.2 k (by omega)
      have hdup2 : is_duplicate_sequence ((q.set e
          { addr := addr, rssi := rssi, lastSeen := now, isValid := true, ttl := ttl,
            lastSequence := seq,
            seqHistory := (List.replicate SEQUENCE_HISTORY_SIZE 0).set 0 seq,
            historyIndex := 1, temperature := temp, voltage := volt }).getD e
          emptyBeacon) seq = true := by
        rw [hgd]
        simp [is_duplicate_sequence]
      exact upsert_eq_dup now2 _ addr rssi2 ttl2 seq temp2 volt2 e hsnd2 hdup2
    | none =>
      rw [upsert_eq_full now q addr rssi ttl seq temp volt hsnd hfst] at h
      injection h with h1 h2
      exact absurd h2 (by simp)

theorem claim4_witness :
    find_or_update_beacon 50 (find_or_update_beacon 100 wQueue wAddr2 (-10) 3 9 0 0).1
      wAddr2 5 1 9 7 7
      = ((find_or_update_beacon 100 wQueue wAddr2 (-10) 3 9 0 0).1, some 1) :=
  claim4_idempotent_dup_upsert 100 50 wQueue wAddr2 (-10) 5 3 1 9 0 7 0 7
    (find_or_update_beacon 100 wQueue wAddr2 (-10) 3 9 0 0).1 1 (by decide)

/-- C6 counterexample: a state with `BEACON_BATCH_SIZE` (3) eligible
records but only 2000 ms since the last send.  The claim says the
scheduler flushes when the eligible count reaches the batch size; the
code's `check_and_send` refuses because only the elapsed-time condition
is consulted. -/
theorem claim6_cex_batch_no_flush :
    BEACON_BATCH_SIZE ≤ countEligible 6000 cexState6.queue ∧
    sub32 6000 cexState6.lastSendTime < MAX_WAIT_TIME_MS ∧
    (check_and_send 0 6000 cexState6).sent = false ∧
    (check_and_send 0 6000 cexState6).buffer = none := by
  decide

/-- C6 amended: `check_and_send` attempts a flush exactly when
`now - last_send_time >= MAX_WAIT_TIME_MS`, regardless of how many
eligible beacons are stored; below the threshold nothing is sent and the
queue only undergoes the stale sweep, above it the flush goes out
whenever no advertising set is active and a set is free (so a flush
fires even with fewer than `BEACON_BATCH_SIZE` eligible records, and
also with zero). -/
theorem claim6_amended_time_gated_flush (junk now : Nat) (s : RelayState) :
    (sub32 now s.lastSendTime < MAX_WAIT_TIME_MS →
      (check_and_send junk now s).sent = false ∧
      (check_and_send junk now s).buffer = none ∧
      (check_and_send junk now s).state.queue = cleanup_old_beacons now s.queue) ∧
    (MAX_WAIT_TIME_MS ≤ sub32 now s.lastSendTime → s.activeAdvSets = 0 →
      ∀ k, freeSet s.advBitfield = some k → (check_and_send junk now s).sent = true) := by
  constructor
  · intro hlt
    rw [check_and_send_noattempt junk now s (by omega)]
    split
    · exact ⟨rfl, rfl, rfl⟩
    · exact ⟨rfl, rfl, rfl⟩
  · intro hge hact k hfree
    obtain ⟨b, hbuf⟩ : ∃ b, (send_adv_data junk now
        { s with queue := cleanup_old_beacons now s.queue }).buffer = some b :=
      ⟨_, by rw [send_adv_data_run junk now
        { s with queue := cleanup_old_beacons now s.queue } k (by simp [hact]) hfree]⟩
    rw [check_and_send_attempt_ok junk now s b hge hbuf]

theorem claim6_witness : (check_and_send 0 6000 wState).sent = true :=
  (claim6_amended_time_gated_flush 0 6000 wState).2 (by decide) (by decide) 0 (by decide)

/-- C7 counterexample: slot 0 holds a record with RSSI −40; upserting the
same address with fresh sequence 6 and RSSI −10 takes the non-duplicate
update path (`last_seen` becomes the new time), yet the stored RSSI stays
−40.  Both policies offered by the claim — last-write-wins and
keep-maximum — would store −10 here. -/
theorem claim7_cex_rssi_not_refreshed :
    ((find_or_update_beacon 1000 wQueue wRec.addr (-10) 3 6 0 0).1.getD 0
      emptyBeacon).lastSeen = 1000 ∧
    ((find_or_update_beacon 1000 wQueue wRec.addr (-10) 3 6 0 0).1.getD 0
      emptyBeacon).rssi = -40 ∧
    max wRec.rssi (-10) = -10 ∧
    ¬ ((find_or_update_beacon 1000 wQueue wRec.addr (-10) 3 6 0 0).1.getD 0
      emptyBeacon).rssi = -10 := by
  decide

/-- C7 amended: on an upsert for an existing address with a
non-duplicate sequence, the record's `last_seen`, `ttl`, `temperature`
and `voltage` are refreshed and the sequence is appended to the history
ring — but `rssi` (signal strength) is left unchanged, following
neither last-write-wins nor keep-maximum. -/
theorem claim7_amended_update_fields (now : Nat) (q : List BeaconInfo) (addr : BtAddrLE)
    (rssi : Int) (ttl seq : Nat) (temp : Int) (volt : Nat) (i : Nat)
    (hex : (findSlots addr q).2 = some i)
    (hdup : is_duplicate_sequence (q.getD i emptyBeacon) seq = false) :
    find_or_update_beacon now q addr rssi ttl seq temp volt
      = (q.set i (update_sequence_history
          { q.getD i emptyBeacon with
            lastSeen := now, ttl := ttl, temperature := temp, voltage := volt } seq),
         some i) ∧
    ((find_or_update_beacon now q addr rssi ttl seq temp volt).1.getD i emptyBeacon).rssi
      = (q.getD i emptyBeacon).rssi := by
  have heq := upsert_eq_update now q addr rssi ttl seq temp volt i hex hdup
  refine ⟨heq, ?_⟩
  rw [heq]
  simp only
  rw [getD_set_self _ _ q i (findSlots_some_spec addr q i hex).1]
  rfl

theorem claim7_witness :
    find_or_update_beacon 1000 wQueue wRec.addr (-10) 3 6 0 0
      = (wQueue.set 0 (update_sequence_history
          { wQueue.getD 0 emptyBeacon with
            lastSeen := 1000, ttl := 3, temperature := 0, voltage := 0 } 6), some 0) ∧
    ((find_or_update_beacon 1000 wQueue wRec.addr (-10) 3 6 0 0).1.getD 0
      emptyBeacon).rssi = (wQueue.getD 0 emptyBeacon).rssi :=
  claim7_amended_update_fields 1000 wQueue wRec.addr (-10) 3 6 0 0 0 (by decide) (by decide)

/-- C8: when a tick's send attempt does not succeed and the watchdog
observes `now - last_success > RECOVERY_TIMEOUT_MS`, recovery is
triggered: afterwards the advertising-set bitmask is clear and the
active-set count is zero (every broadcast slot Free), while every valid,
non-stale store record is preserved unchanged — recovery does not clear
the beacon store. -/
theorem claim8_watchdog_recovery (junk now : Nat) (s : RelayState)
    (hsent : (check_and_send junk now s).sent = false)
    (hstale : RECOVERY_TIMEOUT_MS < sub32 now s.lastSuccess) :
    (check_and_send junk now s).recovered = true ∧
    (check_and_send junk now s).state.advBitfield = 0 ∧
    (check_and_send junk now s).state.activeAdvSets = 0 ∧
    ∀ i, (s.queue.getD i emptyBeacon).isValid = true →
      sub32 now (s.queue.getD i emptyBeacon).lastSeen < TIME_THRESHOLD * 2 →
      (check_and_send junk now s).state.queue.getD i emptyBeacon
        = s.queue.getD i emptyBeacon := by
  have hclean : ∀ i, (s.queue.getD i emptyBeacon).isValid = true →
      sub32 now (s.queue.getD i emptyBeacon).lastSeen < TIME_THRESHOLD * 2 →
      (cleanup_old_beacons now s.queue).getD i emptyBeacon = s.queue.getD i emptyBeacon := by
    intro i hv hfr
    rw [cleanup_getD]
    rw [decide_eq_false (by omega :
      ¬ TIME_THRESHOLD * 2 ≤ sub32 now (s.queue.getD i emptyBeacon).lastSeen)]
    simp
  by_cases hw : MAX_WAIT_TIME_MS ≤ sub32 now s.lastSendTime
  · cases hb : (send_adv_data junk now
        { s with queue := cleanup_old_beacons now s.queue }).buffer with
    | some b =>
      rw [check_and_send_attempt_ok junk now s b hw hb] at hsent
      simp at hsent
    | none =>
      have hbs := send_busy_state junk now _ hb
      have hcond : RECOVERY_TIMEOUT_MS < sub32 now
          (send_adv_data junk now
            { s with queue := cleanup_old_beacons now s.queue }).state.lastSuccess := by
        rw [hbs.2.1]
        exact hstale
      rw [check_and_send_attempt_fail junk now s hw hb, if_pos hcond]
      refine ⟨rfl, rfl, rfl, ?_⟩
      intro i hv hfr
      show (send_adv_data junk now
        { s with queue := cleanup_old_beacons now s.queue }).state.queue.getD i emptyBeacon
        = s.queue.getD i emptyBeacon
      rw [hbs.1]
      exact hclean i hv hfr
  · rw [check_and_send_noattempt junk now s hw, if_pos hstale]
    refine ⟨rfl, rfl, rfl, ?_⟩
    intro i hv hfr
    exact hclean i hv hfr

theorem claim8_witness :
    (check_and_send 0 6000 wState8).recovered = true ∧
    (check_and_send 0 6000 wState8).state.advBitfield = 0 ∧
    (check_and_send 0 6000 wState8).state.activeAdvSets = 0 ∧
    (check_and_send 0 6000 wState8).state.queue.getD 0 emptyBeacon
      = wState8.queue.getD 0 emptyBeacon := by
  have h := claim8_watchdog_recovery 0 6000 wState8 (by decide) (by decide)
  exact ⟨h.1, h.2.1, h.2.2.1, h.2.2.2 0 (by decide) (by decide)⟩

/-! ### Filling the store with distinct fresh sightings -/

theorem filledQueue_length (pre : List Obs) (h : pre.length ≤ MAX_BEACONS) :
    (filledQueue pre).length = MAX_BEACONS := by
  simp [filledQueue]
  omega

theorem filledQueue_getD_lt (pre : List Obs) (j : Nat) (hj : j < pre.length) :
    (filledQueue pre).getD j emptyBeacon = mkRec (pre.getD j dfltObs) := by
  unfold filledQueue
  rw [getD_append_left emptyBeacon _ _ j (by simpa using hj)]
  exact getD_map_mkRec emptyBeacon dfltObs pre j hj

theorem filledQueue_getD_ge (pre : List Obs) (j : Nat) (hj1 : pre.length ≤ j)
    (hj2 : j < MAX_BEACONS) :
    (filledQueue pre).getD j emptyBeacon = emptyBeacon := by
  unfold filledQueue
  rw [getD_append_right emptyBeacon _ _ j (by simpa using hj1), List.length_map]
  exact getD_replicate emptyBeacon emptyBeacon _ _ (by omega)

theorem set_map_append (pre : List Obs) (x : BeaconInfo) (m : Nat) (hm : 0 < m) :
    ((pre.map mkRec) ++ List.replicate m emptyBeacon).set pre.length x
      = (pre.map mkRec) ++ x :: List.replicate (m - 1) emptyBeacon := by
  have hA : pre.length = (pre.map mkRec).length := by simp
  rw [hA, set_append_len]
  cases m with
  | zero => omega
  | succ m2 => simp [List.replicate_succ]

theorem upsert_fresh (o : Obs) (pre : List Obs) (hlen : pre.length < MAX_BEACONS)
    (hfresh : ¬ o.addr ∈ pre.map Obs.addr) :
    find_or_update_beacon o.time (filledQueue pre) o.addr o.rssi o.ttl o.sequence
      o.temperature o.voltage
      = (filledQueue (pre ++ [o]), some pre.length) := by
  have hlenq : (filledQueue pre).length = MAX_BEACONS := filledQueue_length pre (by omega)
  have hnm : firstIdxWhere (slotMatches o.addr) (filledQueue pre) = none := by
    apply (firstIdxWhere_eq_none _ _).2
    intro j hj
    rw [hlenq] at hj
    by_cases hjp : j < pre.length
    · rw [filledQueue_getD_lt pre j hjp]
      have hmem : (pre.getD j dfltObs).addr ∈ pre.map Obs.addr :=
        List.mem_map_of_mem _ (getD_mem dfltObs pre j hjp)
      have hne : (pre.getD j dfltObs).addr ≠ o.addr := fun he => hfresh (he ▸ hmem)
      show (true && decide ((pre.getD j dfltObs).addr = o.addr)) = false
      rw [decide_eq_false hne]
      simp
    · rw [filledQueue_getD_ge pre j (by omega) hj]
      simp [slotMatches, emptyBeacon]
  have hsnd : (findSlots o.addr (filledQueue pre)).2 = none := by
    rw [findSlots_snd, hnm]
  have hfst : (findSlots o.addr (filledQueue pre)).1 = some pre.length := by
    rw [findSlots_fst_of_none _ _ hnm]
    apply (firstIdxWhere_eq_some _ _ _).2
    refine ⟨by rw [hlenq]; exact hlen, ?_, ?_⟩
    · rw [filledQueue_getD_ge pre pre.length (le_refl _) hlen]
      simp [slotFree, emptyBeacon]
    · intro j hj
      rw [filledQueue_getD_lt pre j hj]
      simp [slotFree, mkRec]
  rw [upsert_eq_new o.time (filledQueue pre) o.addr o.rssi o.ttl o.sequence o.temperature
    o.voltage pre.length hsnd hfst]
  congr 1
  unfold filledQueue
  rw [set_map_append pre _ (MAX_BEACONS - pre.length) (by omega)]
  rw [show MAX_BEACONS - pre.length - 1 = MAX_BEACONS - (pre ++ [o]).length from by
    simp; omega]
  rw [List.map_append, List.append_assoc]
  rfl

theorem upsertAll_fill :
    ∀ (obs pre : List Obs), ((pre ++ obs).map Obs.addr).Nodup →
      (pre ++ obs).length ≤ MAX_BEACONS →
      upsertAll obs (filledQueue pre) = filledQueue (pre ++ obs) := by
  intro obs
  induction obs with
  | nil =>
    intro pre _ _
    simp [upsertAll]
  | cons o rest ih =>
    intro pre hnodup hlen
    have hfresh : ¬ o.addr ∈ pre.map Obs.addr := by
      intro hmem
      rw [List.map_append] at hnodup
      have hdis := (List.nodup_append.1 hnodup).2.2
      exact hdis hmem (by simp)
    have hlt : pre.length < MAX_BEACONS := by
      simp [List.length_append] at hlen
      omega
    rw [upsertAll, upsert_fresh o pre hlt hfresh]
    have hrec := ih (pre ++ [o])
      (by rw [List.append_assoc]; simpa using hnodup)
      (by rw [List.append_assoc]; simpa using hlen)
    rw [List.append_assoc] at hrec
    simpa using hrec

/-- C3: starting from the empty store, the number of valid records never
exceeds `MAX_BEACONS` at any point of a sequence of upserts, and after
filling the store with `MAX_BEACONS` distinct addresses, the next upsert
of yet another distinct address fails (`none`, the C code's `-1`) and
leaves the store unchanged: the sighting is dropped. -/
theorem claim3_capacity (first : List Obs) (olast : Obs)
    (hlen : first.length = MAX_BEACONS)
    (hnodup : ((first ++ [olast]).map Obs.addr).Nodup) :
    (∀ k, validCount (upsertAll ((first ++ [olast]).take k) emptyQueue) ≤ MAX_BEACONS) ∧
    find_or_update_beacon olast.time (upsertAll first emptyQueue) olast.addr olast.rssi
      olast.ttl olast.sequence olast.temperature olast.voltage
      = (upsertAll first emptyQueue, none) := by
  have hmap : (first.map Obs.addr ++ [olast].map Obs.addr).Nodup := by
    rw [← List.map_append]
    exact hnodup
  have hdis := (List.nodup_append.1 hmap).2.2
  have hfresh : ¬ olast.addr ∈ first.map Obs.addr := by
    intro hmem
    exact hdis hmem (by simp)
  constructor
  · intro k
    calc validCount (upsertAll ((first ++ [olast]).take k) emptyQueue)
        ≤ (upsertAll ((first ++ [olast]).take k) emptyQueue).length := validCount_le _
      _ = emptyQueue.length := upsertAll_length _ _
      _ = MAX_BEACONS := by simp [emptyQueue]
  · have h0 : filledQueue [] = emptyQueue := by
      simp [filledQueue, emptyQueue]
    have hfill : upsertAll first emptyQueue = filledQueue first := by
      have := upsertAll_fill first []
        (by simpa using (List.nodup_append.1 hmap).1) (by simp [hlen])
      rw [h0] at this
      simpa using this
    rw [hfill]
    have hnm : firstIdxWhere (slotMatches olast.addr) (filledQueue first) = none := by
      apply (firstIdxWhere_eq_none _ _).2
      intro j hj
      rw [filledQueue_length first (by omega)] at hj
      rw [filledQueue_getD_lt first j (by omega)]
      have hmem : (first.getD j dfltObs).addr ∈ first.map Obs.addr :=
        List.mem_map_of_mem _ (getD_mem dfltObs first j (by omega))
      have hne : (first.getD j dfltObs).addr ≠ olast.addr := fun he => hfresh (he ▸ hmem)
      show (true && decide ((first.getD j dfltObs).addr = olast.addr)) = false
      rw [decide_eq_false hne]
      simp
    have hsnd : (findSlots olast.addr (filledQueue first)).2 = none := by
      rw [findSlots_snd, hnm]
    have hfst : (findSlots olast.addr (filledQueue first)).1 = none := by
      rw [findSlots_fst_of_none _ _ hnm]
      rw [(firstIdxWhere_eq_none _ _).2 ?_]
      intro j hj
      rw [filledQueue_length first (by omega)] at hj
      rw [filledQueue_getD_lt first j (by omega)]
      simp [slotFree, mkRec]
    exact upsert_eq_full olast.time (filledQueue first) olast.addr olast.rssi olast.ttl
      olast.sequence olast.temperature olast.voltage hsnd hfst

theorem claim3_witness :
    (∀ k, validCount (upsertAll
      (((wObsList.take MAX_BEACONS) ++ [wObsList.getD MAX_BEACONS dfltObs]).take k)
      emptyQueue) ≤ MAX_BEACONS) ∧
    find_or_update_beacon (wObsList.getD MAX_BEACONS dfltObs).time
      (upsertAll (wObsList.take MAX_BEACONS) emptyQueue)
      (wObsList.getD MAX_BEACONS dfltObs).addr
      (wObsList.getD MAX_BEACONS dfltObs).rssi
      (wObsList.getD MAX_BEACONS dfltObs).ttl
      (wObsList.getD MAX_BEACONS dfltObs).sequence
      (wObsList.getD MAX_BEACONS dfltObs).temperature
      (wObsList.getD MAX_BEACONS dfltObs).voltage
      = (upsertAll (wObsList.take MAX_BEACONS) emptyQueue, none) :=
  claim3_capacity (wObsList.take MAX_BEACONS) (wObsList.getD MAX_BEACONS dfltObs)
    (by decide) (by decide)

end BeaconRelay
